import Mathlib

/-!
# Carsu multi-tenant task-board service: verification of the tenant-isolation
# and realtime-distribution subsystem

Shallow embedding of the NestJS/Prisma source (apps/api/src/modules/...).
Strings model JS strings; `Option String` models possibly-undefined values;
JS truthiness of strings (empty string is falsy) is modelled explicitly.
Databases are lists of rows; Prisma `findFirst`/`findMany`/`updateMany`/
`deleteMany`/`upsert` calls become pure functions over those lists.
Service methods return an `Except` result together with the updated state and
an ordered list of side effects (store writes, cache invalidations, realtime
emissions), so that sequencing claims are provable.
-/

namespace Carsu

/-- JS truthiness of a possibly-undefined string: `undefined` and `""` are falsy. -/
def strTruthy : Option String → Bool
  | none => false
  | some s => s ≠ ""

/-- JS `a || b` on possibly-undefined strings (empty string counts as falsy). -/
def jsOr (a b : Option String) : Option String :=
  if strTruthy a then a else b

/-- JS `String.prototype.trim`: strip whitespace from both ends (list-level
model of the TS `trim()` calls, evaluable by the kernel). -/
def jsTrim (s : String) : String :=
  ⟨((s.data.dropWhile Char.isWhitespace).reverse.dropWhile Char.isWhitespace).reverse⟩

/-- JS `String.prototype.startsWith`. -/
def jsStartsWith (s pre : String) : Bool :=
  pre.data.isPrefixOf s.data

/-- JS `String.prototype.slice(n)` (codepoint-level model). -/
def jsDrop (s : String) (n : Nat) : String :=
  ⟨s.data.drop n⟩

deriving instance DecidableEq for Except

/-! ## Data model (prisma/schema.prisma rows) -/

structure User where
  id : String
  email : String
deriving Repr, DecidableEq

structure Membership where
  userId : String
  tenantId : String
  role : String
deriving Repr, DecidableEq

structure Board where
  id : String
  tenantId : String
  name : String
deriving Repr, DecidableEq

inductive TodoStatus where
  | TODO
  | IN_PROGRESS
  | DONE
deriving Repr, DecidableEq

structure Todo where
  id : String
  tenantId : String
  boardId : String
  title : String
  description : String
  status : TodoStatus
  assigneeUserId : Option String
deriving Repr, DecidableEq

structure Db where
  users : List User
  memberships : List Membership
  boards : List Board
  todos : List Todo
deriving Repr, DecidableEq

/-! ## Read cache (cache-manager; untyped store keyed by string) -/

/-- Projection returned by board queries (`select { id, name }`). -/
structure BoardSummary where
  id : String
  name : String
deriving Repr, DecidableEq

/-- Projection returned by todo list queries
(`select { id, title, status, assigneeUserId }`). -/
structure TodoSummary where
  id : String
  title : String
  status : TodoStatus
  assigneeUserId : Option String
deriving Repr, DecidableEq

structure PageMeta where
  nextCursor : Option String
  hasMore : Bool
deriving Repr, DecidableEq

structure BoardPage where
  data : List BoardSummary
  meta : PageMeta
deriving Repr, DecidableEq

structure TodoPage where
  data : List TodoSummary
  meta : PageMeta
deriving Repr, DecidableEq

/-- A value stored in the shared cache-manager store (the store is untyped in
the source; the two envelope shapes it ever holds are board and todo pages). -/
inductive CacheVal where
  | boardsPage (p : BoardPage)
  | todosPage (p : TodoPage)
deriving Repr, DecidableEq

/-- The cache store: association list keyed by the string cache key. -/
def CacheStore := List (String × CacheVal)
deriving instance Repr, DecidableEq for CacheStore

def cacheGet (c : CacheStore) (k : String) : Option CacheVal :=
  (c.find? (fun e => e.fst = k)).map Prod.snd

def cacheSet (c : CacheStore) (k : String) (v : CacheVal) : CacheStore :=
  (k, v) :: c.filter (fun e => e.fst ≠ k)

def cacheDel (c : CacheStore) (k : String) : CacheStore :=
  c.filter (fun e => e.fst ≠ k)

/-- Combined service state: the Prisma database plus the cache store. -/
structure State where
  db : Db
  cache : CacheStore
deriving Repr, DecidableEq

/-! ## Errors (NestJS HTTP exceptions) -/

inductive ApiError where
  | unauthorized (msg : String)
  | forbidden (msg : String)
  | notFound (msg : String)
deriving Repr, DecidableEq

/-! ## Side effects, in emission order, for sequencing claims -/

inductive Effect where
  | dbWrite
  | cacheInvalidate (key : String)
  | emitTenant (tenantId event : String)
  | emitBoard (tenantId boardId event : String)
deriving Repr, DecidableEq

/-! ## TenantsService (modules/tenants/tenants.service.ts) -/

/-- `TenantsService.isUserMemberOfTenant`: composite-key point lookup in the
membership store. -/
def isUserMemberOfTenant (db : Db) (userId tenantId : String) : Bool :=
  (db.memberships.find? (fun m => m.userId = userId ∧ m.tenantId = tenantId)).isSome

/-- `TenantsService.addUserToTenantByEmail`: find the user by email (404 when
absent), then upsert the membership row — `update: {}` leaves an existing row
unchanged, `create` inserts role `member`. Returns `{ tenantId, userId }`. -/
def addUserToTenantByEmail (db : Db) (tenantId email : String) :
    Except ApiError (String × String) × Db :=
  match db.users.find? (fun u => u.email = email) with
  | none => (.error (.notFound "User not found"), db)
  | some user =>
    if (db.memberships.find?
        (fun m => m.userId = user.id ∧ m.tenantId = tenantId)).isSome then
      (.ok (tenantId, user.id), db)
    else
      (.ok (tenantId, user.id),
        { db with memberships := db.memberships ++ [⟨user.id, tenantId, "member"⟩] })

/-! ## Guards (jwt-auth.guard.ts, tenant.guard.ts), composed as
`@UseGuards(JwtAuthGuard, TenantGuard)` on every tenant-scoped controller. -/

/-- An HTTP request as the guard chain sees it: `user` is the principal that
passport attached after JWT verification (`none` = no/invalid credential),
plus the `x-tenant-id` header and the `:tenantId` route parameter. -/
structure Request where
  user : Option String
  headerTenantId : Option String
  paramTenantId : Option String
deriving Repr, DecidableEq

/-- Observable membership-store lookups performed by a guard, so claims about
"before any membership lookup" are statable. -/
inductive GuardEffect where
  | membershipLookup (userId tenantId : String)
deriving Repr, DecidableEq

/-- `TenantGuard.canActivate`: header/param mismatch check, then principal and
header presence check (both throw Forbidden "Tenant access denied" when
missing), then the membership lookup. On success binds `activeTenantId`. -/
def tenantGuardCanActivate (db : Db) (req : Request) :
    Except ApiError String × List GuardEffect :=
  let tenantId : Option String := req.headerTenantId.map jsTrim
  if strTruthy tenantId ∧ strTruthy req.paramTenantId ∧ tenantId ≠ req.paramTenantId then
    (.error (.forbidden "Tenant mismatch"), [])
  else if ¬ strTruthy req.user ∨ ¬ strTruthy tenantId then
    (.error (.forbidden "Tenant access denied"), [])
  else
    match req.user, tenantId with
    | some u, some t =>
      if isUserMemberOfTenant db u t then (.ok t, [.membershipLookup u t])
      else (.error (.forbidden "Tenant access denied"), [.membershipLookup u t])
    | _, _ => (.error (.forbidden "Tenant access denied"), [])

/-- The guard chain on tenant-scoped routes: `JwtAuthGuard` runs first and its
`handleRequest` throws `UnauthorizedException("Unauthorized")` when no
principal was established; only then does `TenantGuard` run. -/
def guardChain (db : Db) (req : Request) :
    Except ApiError String × List GuardEffect :=
  match req.user with
  | none => (.error (.unauthorized "Unauthorized"), [])
  | some _ => tenantGuardCanActivate db req

/-! ## Cursor pagination (shared shape of listBoards/listTodos)

Prisma semantics embedded: `orderBy: { id: 'asc' }` sorts rows by id;
`cursor: { id: c }, skip: 1` positions the window at the row whose id is `c`
and skips it (empty result when the cursor row is absent); `take: limit + 1`
over-fetches one row. The TS code only spreads the cursor clause when the
cursor string is truthy. -/

/-- The suffix of `rows` the query window starts at, given the (possibly
falsy) cursor. -/
def afterCursor (key : α → String) (rows : List α) : Option String → List α
  | none => rows
  | some c => if c = "" then rows else (rows.dropWhile (fun r => key r ≠ c)).drop 1

/-- One list call's raw result: the over-fetched `query`, the trimmed `data`,
and the computed `nextCursor` / `hasMore` (`Boolean(nextCursor)` in TS, so an
empty-string cursor would count as false). -/
structure RawPage (α : Type) where
  query : List α
  data : List α
  nextCursor : Option String
  hasMore : Bool
deriving Repr, DecidableEq

def pageOf (key : α → String) (rows : List α) (cursor : Option String)
    (limit : Nat) : RawPage α :=
  let query := (afterCursor key rows cursor).take (limit + 1)
  let data := query.take limit
  let nextCursor := if limit < query.length then data.getLast?.map key else none
  { query := query, data := data, nextCursor := nextCursor,
    hasMore := strTruthy nextCursor }

/-! ## BoardsService (modules/boards/boards.service.ts) -/

def boardSummaryOf (b : Board) : BoardSummary := ⟨b.id, b.name⟩

/-- `prisma.board.findMany({ where: { tenantId }, orderBy: { id: 'asc' },
select: { id, name } })` without the pagination clauses. -/
def boardItems (db : Db) (tenantId : String) : List BoardSummary :=
  (List.insertionSort (fun a b => a.id ≤ b.id)
    (db.boards.filter (fun b => b.tenantId = tenantId))).map boardSummaryOf

/-- The first-page cache key `tenant:${tenantId}:boards:first:${limit}`. -/
def boardsFirstPageKey (tenantId : String) (limit : Nat) : String :=
  "tenant:" ++ tenantId ++ ":boards:first:" ++ toString limit

/-- `BoardsService.listBoards`. Membership check, then first-page cache lookup
(only when the cursor is absent/falsy), then the paginated query, then a
best-effort cache fill of the first page. (The source cache is untyped; the
boards and todos key families are disjoint, so a boards key only ever holds a
boards envelope — a mismatched entry is treated as a miss here.) -/
def listBoards (s : State) (userId tenantId : String) (cursor : Option String)
    (limit : Nat := 20) : Except ApiError BoardPage × State × List Effect :=
  if ¬ isUserMemberOfTenant s.db userId tenantId then
    (.error (.forbidden "Tenant access denied"), s, [])
  else
    let cacheKey : Option String :=
      if strTruthy cursor then none else some (boardsFirstPageKey tenantId limit)
    let cached : Option BoardPage :=
      match cacheKey with
      | some k =>
        match cacheGet s.cache k with
        | some (.boardsPage p) => some p
        | _ => none
      | none => none
    match cached with
    | some p => (.ok p, s, [])
    | none =>
      let p := pageOf BoardSummary.id (boardItems s.db tenantId) cursor limit
      let response : BoardPage :=
        { data := p.data, meta := { nextCursor := p.nextCursor, hasMore := p.hasMore } }
      let s' : State :=
        match cacheKey with
        | some k => { s with cache := cacheSet s.cache k (.boardsPage response) }
        | none => s
      (.ok response, s', [])

/-- `BoardsService.createBoard`. The fresh Prisma-generated id is passed in as
`newId`. Invalidation uses the literal key `tenant:${tenantId}:boards:first:20`
exactly as in the source. -/
def createBoard (s : State) (userId tenantId name newId : String) :
    Except ApiError BoardSummary × State × List Effect :=
  if ¬ isUserMemberOfTenant s.db userId tenantId then
    (.error (.forbidden "Tenant access denied"), s, [])
  else
    let board : Board := ⟨newId, tenantId, name⟩
    let key := "tenant:" ++ tenantId ++ ":boards:first:20"
    (.ok ⟨board.id, board.name⟩,
      { db := { s.db with boards := s.db.boards ++ [board] },
        cache := cacheDel s.cache key },
      [.dbWrite, .cacheInvalidate key, .emitTenant tenantId "board.created"])

/-- `BoardsService.getBoard`: `findFirst({ where: { id: boardId, tenantId } })`
then 404 when absent. Read-only. -/
def getBoard (s : State) (userId tenantId boardId : String) :
    Except ApiError BoardSummary :=
  if ¬ isUserMemberOfTenant s.db userId tenantId then
    .error (.forbidden "Tenant access denied")
  else
    match s.db.boards.find? (fun b => b.id = boardId ∧ b.tenantId = tenantId) with
    | none => .error (.notFound "Board not found")
    | some b => .ok ⟨b.id, b.name⟩

/-- `BoardsService.updateBoard`: membership, tenant-scoped existence check
(404 when zero rows), tenant-scoped `updateMany` (404 when count is 0), then
cache invalidation (literal `:20` key) and event emission, in that order. -/
def updateBoard (s : State) (userId tenantId boardId name : String) :
    Except ApiError BoardSummary × State × List Effect :=
  if ¬ isUserMemberOfTenant s.db userId tenantId then
    (.error (.forbidden "Tenant access denied"), s, [])
  else
    match s.db.boards.find? (fun b => b.id = boardId ∧ b.tenantId = tenantId) with
    | none => (.error (.notFound "Board not found"), s, [])
    | some _ =>
      let count :=
        (s.db.boards.filter (fun b => b.id = boardId ∧ b.tenantId = tenantId)).length
      if count = 0 then (.error (.notFound "Board not found"), s, [])
      else
        let boards' := s.db.boards.map (fun b =>
          if b.id = boardId ∧ b.tenantId = tenantId then { b with name := name } else b)
        let key := "tenant:" ++ tenantId ++ ":boards:first:20"
        (.ok ⟨boardId, name⟩,
          { db := { s.db with boards := boards' }, cache := cacheDel s.cache key },
          [.dbWrite, .cacheInvalidate key, .emitTenant tenantId "board.updated"])

/-- `BoardsService.deleteBoard`: membership, tenant-scoped existence check,
tenant-scoped `deleteMany`, cache invalidation (literal `:20` key), emission. -/
def deleteBoard (s : State) (userId tenantId boardId : String) :
    Except ApiError Bool × State × List Effect :=
  if ¬ isUserMemberOfTenant s.db userId tenantId then
    (.error (.forbidden "Tenant access denied"), s, [])
  else
    match s.db.boards.find? (fun b => b.id = boardId ∧ b.tenantId = tenantId) with
    | none => (.error (.notFound "Board not found"), s, [])
    | some _ =>
      let count :=
        (s.db.boards.filter (fun b => b.id = boardId ∧ b.tenantId = tenantId)).length
      if count = 0 then (.error (.notFound "Board not found"), s, [])
      else
        let boards' := s.db.boards.filter (fun b =>
          ¬ (b.id = boardId ∧ b.tenantId = tenantId))
        let key := "tenant:" ++ tenantId ++ ":boards:first:20"
        (.ok true,
          { db := { s.db with boards := boards' }, cache := cacheDel s.cache key },
          [.dbWrite, .cacheInvalidate key, .emitTenant tenantId "board.deleted"])

/-! ## TodosService (modules/todos/todos.service.ts) -/

def todoSummaryOf (t : Todo) : TodoSummary :=
  ⟨t.id, t.title, t.status, t.assigneeUserId⟩

/-- Projection returned by `getTodo`
(`select { id, title, status, assigneeUserId, boardId }`). -/
structure TodoDetail where
  id : String
  title : String
  status : TodoStatus
  assigneeUserId : Option String
  boardId : String
deriving Repr, DecidableEq

/-- `prisma.todo.findMany({ where: { tenantId, boardId },
orderBy: { id: 'asc' }, select: { id, title, status, assigneeUserId } })`
without the pagination clauses. -/
def todoItems (db : Db) (tenantId boardId : String) : List TodoSummary :=
  (List.insertionSort (fun a b => a.id ≤ b.id)
    (db.todos.filter (fun t => t.tenantId = tenantId ∧ t.boardId = boardId))).map
    todoSummaryOf

/-- The first-page cache key
`tenant:${tenantId}:board:${boardId}:todos:first:${limit}`. -/
def todosFirstPageKey (tenantId boardId : String) (limit : Nat) : String :=
  "tenant:" ++ tenantId ++ ":board:" ++ boardId ++ ":todos:first:" ++ toString limit

/-- `TodosService.listTodos`: same structure as `listBoards`, keyed by
(tenant, board). -/
def listTodos (s : State) (userId tenantId boardId : String)
    (cursor : Option String) (limit : Nat := 20) :
    Except ApiError TodoPage × State × List Effect :=
  if ¬ isUserMemberOfTenant s.db userId tenantId then
    (.error (.forbidden "Tenant access denied"), s, [])
  else
    let cacheKey : Option String :=
      if strTruthy cursor then none
      else some (todosFirstPageKey tenantId boardId limit)
    let cached : Option TodoPage :=
      match cacheKey with
      | some k =>
        match cacheGet s.cache k with
        | some (.todosPage p) => some p
        | _ => none
      | none => none
    match cached with
    | some p => (.ok p, s, [])
    | none =>
      let p := pageOf TodoSummary.id (todoItems s.db tenantId boardId) cursor limit
      let response : TodoPage :=
        { data := p.data, meta := { nextCursor := p.nextCursor, hasMore := p.hasMore } }
      let s' : State :=
        match cacheKey with
        | some k => { s with cache := cacheSet s.cache k (.todosPage response) }
        | none => s
      (.ok response, s', [])

/-- `TodosService.createTodo`: membership, then the I2 existence check that the
target board belongs to the same tenant (404 "Board not found" otherwise),
then the insert, the literal-`:20`-key cache invalidation, and the
`todo.created` emission to the board room. -/
def createTodo (s : State) (userId tenantId boardId title : String)
    (description : Option String) (status : TodoStatus)
    (assigneeUserId : Option String) (newId : String) :
    Except ApiError TodoSummary × State × List Effect :=
  if ¬ isUserMemberOfTenant s.db userId tenantId then
    (.error (.forbidden "Tenant access denied"), s, [])
  else
    match s.db.boards.find? (fun b => b.id = boardId ∧ b.tenantId = tenantId) with
    | none => (.error (.notFound "Board not found"), s, [])
    | some _ =>
      let todo : Todo :=
        ⟨newId, tenantId, boardId, title, description.getD "", status, assigneeUserId⟩
      let key := "tenant:" ++ tenantId ++ ":board:" ++ boardId ++ ":todos:first:20"
      (.ok (todoSummaryOf todo),
        { db := { s.db with todos := s.db.todos ++ [todo] },
          cache := cacheDel s.cache key },
        [.dbWrite, .cacheInvalidate key, .emitBoard tenantId boardId "todo.created"])

/-- `TodosService.getTodo`: tenant-scoped `findFirst`, 404 when absent.
Read-only. -/
def getTodo (s : State) (userId tenantId todoId : String) :
    Except ApiError TodoDetail :=
  if ¬ isUserMemberOfTenant s.db userId tenantId then
    .error (.forbidden "Tenant access denied")
  else
    match s.db.todos.find? (fun t => t.id = todoId ∧ t.tenantId = tenantId) with
    | none => .error (.notFound "Todo not found")
    | some t => .ok ⟨t.id, t.title, t.status, t.assigneeUserId, t.boardId⟩

/-- A PATCH body for a todo; `none` fields are absent from the patch. The
`assigneeUserId` field can be present-and-null. -/
structure TodoPatch where
  title : Option String := none
  description : Option String := none
  status : Option TodoStatus := none
  assigneeUserId : Option (Option String) := none
deriving Repr, DecidableEq

def applyPatch (t : Todo) (p : TodoPatch) : Todo :=
  { t with
    title := p.title.getD t.title
    description := p.description.getD t.description
    status := p.status.getD t.status
    assigneeUserId := p.assigneeUserId.getD t.assigneeUserId }

/-- `TodosService.updateTodo`: membership, tenant-scoped existence fetch
(404 when zero rows, also yielding the parent boardId), tenant-scoped
`updateMany` (404 when count is 0), cache invalidation for the parent board's
first-page key (literal `:20`), `todo.updated` emission, then a re-read via
`getTodo` as the returned value. -/
def updateTodo (s : State) (userId tenantId todoId : String) (patch : TodoPatch) :
    Except ApiError TodoDetail × State × List Effect :=
  if ¬ isUserMemberOfTenant s.db userId tenantId then
    (.error (.forbidden "Tenant access denied"), s, [])
  else
    match s.db.todos.find? (fun t => t.id = todoId ∧ t.tenantId = tenantId) with
    | none => (.error (.notFound "Todo not found"), s, [])
    | some exists_ =>
      let count :=
        (s.db.todos.filter (fun t => t.id = todoId ∧ t.tenantId = tenantId)).length
      if count = 0 then (.error (.notFound "Todo not found"), s, [])
      else
        let todos' := s.db.todos.map (fun t =>
          if t.id = todoId ∧ t.tenantId = tenantId then applyPatch t patch else t)
        let key := "tenant:" ++ tenantId ++ ":board:" ++ exists_.boardId
          ++ ":todos:first:20"
        let s' : State :=
          { db := { s.db with todos := todos' }, cache := cacheDel s.cache key }
        (getTodo s' userId tenantId todoId, s',
          [.dbWrite, .cacheInvalidate key,
            .emitBoard tenantId exists_.boardId "todo.updated"])

/-- `TodosService.deleteTodo`: membership, tenant-scoped existence fetch,
tenant-scoped `deleteMany`, cache invalidation (literal `:20`), emission. -/
def deleteTodo (s : State) (userId tenantId todoId : String) :
    Except ApiError Bool × State × List Effect :=
  if ¬ isUserMemberOfTenant s.db userId tenantId then
    (.error (.forbidden "Tenant access denied"), s, [])
  else
    match s.db.todos.find? (fun t => t.id = todoId ∧ t.tenantId = tenantId) with
    | none => (.error (.notFound "Todo not found"), s, [])
    | some exists_ =>
      let count :=
        (s.db.todos.filter (fun t => t.id = todoId ∧ t.tenantId = tenantId)).length
      if count = 0 then (.error (.notFound "Todo not found"), s, [])
      else
        let todos' := s.db.todos.filter (fun t =>
          ¬ (t.id = todoId ∧ t.tenantId = tenantId))
        let key := "tenant:" ++ tenantId ++ ":board:" ++ exists_.boardId
          ++ ":todos:first:20"
        (.ok true,
          { db := { s.db with todos := todos' }, cache := cacheDel s.cache key },
          [.dbWrite, .cacheInvalidate key,
            .emitBoard tenantId exists_.boardId "todo.deleted"])

/-! ## RealtimeGateway (modules/realtime/realtime.gateway.ts)

`handleConnection` extracts the token (`auth.token || headers.authorization`)
and the tenant id (`auth.tenantId || headers['x-tenant-id']`), requires both
truthy, strips an optional `Bearer ` tag, verifies the JWT, then binds the
socket: `client.userId = payload.sub`, `client.tenantId = String(raw).trim()`,
and auto-joins the room `${raw}:boards` (the room template uses the raw,
untrimmed handshake value captured in the closure). The gateway's only
injected dependency is `JwtService`; it has no handle on the membership store,
so the embedding takes a JWT verifier but no database. -/

structure Handshake where
  authToken : Option String
  headerAuthorization : Option String
  authTenantId : Option String
  headerTenantId : Option String
deriving Repr, DecidableEq

/-- A live socket after a successful handshake. `tenantId` is the stored bound
tenant (trimmed); `rawTenantId` is the handshake value the room templates
close over. `rooms` is the socket's current room set. -/
structure Conn where
  userId : String
  tenantId : String
  rawTenantId : String
  rooms : List String
deriving Repr, DecidableEq

/-- `token.startsWith('Bearer ') ? token.slice(7) : token`. -/
def stripBearer (token : String) : String :=
  if jsStartsWith token "Bearer " then jsDrop token 7 else token

/-- `socket.join`: idempotent room insertion. -/
def joinRoom (rooms : List String) (room : String) : List String :=
  if room ∈ rooms then rooms else rooms ++ [room]

/-- `RealtimeGateway.handleConnection`, with the JWT verifier abstracted as
`verify : token → Option userId` (`none` = invalid/expired signature). Result
`none` means the socket was disconnected (fail-closed); `some c` is the bound
connection after the auto-join of the tenant-wide room. No membership lookup
occurs: the gateway cannot reach the membership store. -/
def handleConnection (verify : String → Option String) (hs : Handshake) :
    Option Conn :=
  let token := jsOr hs.authToken hs.headerAuthorization
  let tenantId := jsOr hs.authTenantId hs.headerTenantId
  if ¬ strTruthy token ∨ ¬ strTruthy tenantId then none
  else
    match token, tenantId with
    | some tok, some raw =>
      match verify (stripBearer tok) with
      | none => none
      | some sub =>
        some { userId := sub, tenantId := jsTrim raw, rawTenantId := raw,
               rooms := joinRoom [] (raw ++ ":boards") }
    | _, _ => none

/-- The `join_board` handler: `boardId = String(data?.boardId || '').trim()`;
empty → silently ignored; otherwise joins `${tenantId}:${boardId}` where
`tenantId` is the raw handshake value captured in the closure. -/
def joinBoardMsg (c : Conn) (payload : Option String) : Conn :=
  let boardId := jsTrim (payload.getD "")
  if boardId = "" then c
  else { c with rooms := joinRoom c.rooms (c.rawTenantId ++ ":" ++ boardId) }

/-- The `leave_board` handler: same sanitisation, then `socket.leave`. -/
def leaveBoardMsg (c : Conn) (payload : Option String) : Conn :=
  let boardId := jsTrim (payload.getD "")
  if boardId = "" then c
  else { c with rooms := c.rooms.filter (fun r => r ≠ c.rawTenantId ++ ":" ++ boardId) }

/-- Client-to-server realtime messages. -/
inductive RtMsg where
  | joinBoard (payload : Option String)
  | leaveBoard (payload : Option String)
deriving Repr, DecidableEq

def applyMsg (c : Conn) (m : RtMsg) : Conn :=
  match m with
  | .joinBoard p => joinBoardMsg c p
  | .leaveBoard p => leaveBoardMsg c p

def applyMsgs (c : Conn) (ms : List RtMsg) : Conn :=
  ms.foldl applyMsg c

/-! ## RealtimeService (realtime.service.ts)

The service reads `gateway.server` (possibly undefined before `afterInit`),
`server.sockets` and `sockets.adapter` (optional chaining in the source), and
emits to a room. Unchecked JS property accesses are modelled through `jsGet`,
which raises a `TypeError` on `undefined` — so "never throws" is a real
statement about the guarded control flow, not a triviality of total
functions. -/

inductive JsError where
  | typeError
deriving Repr, DecidableEq

def jsGet : Option α → Except JsError α
  | none => .error .typeError
  | some a => .ok a

structure Adapter where
  rooms : List (String × List String)
deriving Repr, DecidableEq

structure SocketsNs where
  adapter : Option Adapter
deriving Repr, DecidableEq

structure ServerS where
  sockets : Option SocketsNs
deriving Repr, DecidableEq

structure Gateway where
  server : Option ServerS
deriving Repr, DecidableEq

/-- `!this.gateway.server || !this.gateway.server.sockets`. -/
def serverNotReady (g : Gateway) : Bool :=
  match g.server with
  | none => true
  | some srv => srv.sockets.isNone

/-- What one emission did: the resolved room, the event name, and the socket
ids the adapter currently lists in that room (empty for an empty room). -/
structure Emission where
  room : String
  event : String
  delivered : List String
deriving Repr, DecidableEq

/-- `RealtimeService.emitToBoard`: early-return when the server is not ready,
then resolve room `${tenantId}:${boardId}`, read the adapter's room set with
optional chaining, and emit (a no-op delivery when the room is empty). -/
def emitToBoard (g : Gateway) (tenantId boardId event : String) :
    Except JsError (Option Emission) :=
  if serverNotReady g then .ok none
  else do
    let room := tenantId ++ ":" ++ boardId
    let srv ← jsGet g.server
    let sockets ← jsGet srv.sockets
    let socketsInRoom := sockets.adapter.bind
      (fun a => (a.rooms.find? (fun e => e.fst = room)).map Prod.snd)
    let _ ← jsGet g.server
    .ok (some { room := room, event := event, delivered := socketsInRoom.getD [] })

/-- `RealtimeService.emitToTenant`: identical shape with room
`${tenantId}:boards`. -/
def emitToTenant (g : Gateway) (tenantId event : String) :
    Except JsError (Option Emission) :=
  if serverNotReady g then .ok none
  else do
    let room := tenantId ++ ":boards"
    let srv ← jsGet g.server
    let sockets ← jsGet srv.sockets
    let socketsInRoom := sockets.adapter.bind
      (fun a => (a.rooms.find? (fun e => e.fst = room)).map Prod.snd)
    let _ ← jsGet g.server
    .ok (some { room := room, event := event, delivered := socketsInRoom.getD [] })

/-! ## Repeated listing along `nextCursor` (the P3 enumeration process) -/

/-- The observable part of one list call: trimmed data, `nextCursor`,
`hasMore`. -/
structure PageOut (α : Type) where
  data : List α
  nextCursor : Option String
  hasMore : Bool
deriving Repr, DecidableEq

/-- The page sequence a client is supposed to see when enumerating a fixed
item list `l` with page size `limit`: full pages of exactly `limit` items with
`hasMore = true`, then one final page (possibly short, possibly everything)
with `hasMore = false`. -/
def expectedPages (key : α → String) (limit : Nat) (l : List α) :
    List (PageOut α) :=
  if _h : l.length ≤ limit ∨ limit = 0 then [⟨l, none, false⟩]
  else
    ⟨l.take limit, (l.take limit).getLast?.map key, true⟩ ::
      expectedPages key limit (l.drop limit)
termination_by l.length
decreasing_by
  simp only [List.length_drop]
  omega

/-- Pure follow-the-cursor process over a fixed item list: issue one page
query, then recurse on the returned `nextCursor` until it is absent. -/
def followPure (key : α → String) (l : List α) (limit : Nat) :
    Nat → Option String → List (PageOut α)
  | 0, _ => []
  | fuel + 1, cursor =>
    let p := pageOf key l cursor limit
    ⟨p.data, p.nextCursor, p.hasMore⟩ ::
      (match p.nextCursor with
       | some c => followPure key l limit fuel (some c)
       | none => [])

/-- Repeatedly call `listBoards`, feeding each returned `nextCursor` into the
next call (threading the service state), until `nextCursor` is absent or an
error occurs. -/
def followBoardPages (userId tenantId : String) (limit : Nat) :
    Nat → State → Option String → List BoardPage
  | 0, _, _ => []
  | fuel + 1, s, cursor =>
    match listBoards s userId tenantId cursor limit with
    | (.ok page, s', _) =>
      page ::
        (match page.meta.nextCursor with
         | some c => followBoardPages userId tenantId limit fuel s' (some c)
         | none => [])
    | (.error _, _, _) => []

/-- Repeatedly call `listTodos` the same way. -/
def followTodoPages (userId tenantId boardId : String) (limit : Nat) :
    Nat → State → Option String → List TodoPage
  | 0, _, _ => []
  | fuel + 1, s, cursor =>
    match listTodos s userId tenantId boardId cursor limit with
    | (.ok page, s', _) =>
      page ::
        (match page.meta.nextCursor with
         | some c => followTodoPages userId tenantId boardId limit fuel s' (some c)
         | none => [])
    | (.error _, _, _) => []

def toBoardPage (p : PageOut BoardSummary) : BoardPage :=
  ⟨p.data, ⟨p.nextCursor, p.hasMore⟩⟩

def toTodoPage (p : PageOut TodoSummary) : TodoPage :=
  ⟨p.data, ⟨p.nextCursor, p.hasMore⟩⟩

/-! ## Room-name helpers (C4) -/

/-- `room` is namespaced by `tenant`: it is `tenant` followed by a colon. -/
def roomEncodesTenant (tenant room : String) : Prop :=
  ∃ suffix, room = tenant ++ ":" ++ suffix

/-- The identifier contains no colon (room names are parsed on the first
colon, so colon-free tenant identifiers determine the namespace uniquely). -/
def colonFree (s : String) : Prop := ':' ∉ s.data

/-- What the adapter currently lists for a room (empty list when the adapter
is absent or the room is unknown). -/
def roomMembers (sockets : SocketsNs) (room : String) : List String :=
  (sockets.adapter.bind (fun a =>
    (a.rooms.find? (fun e => e.fst = room)).map Prod.snd)).getD []

/-! ## Theorems -/

/-- Claim C7: on every request with no authenticated principal, the guard
chain applied to tenant-scoped routes (`JwtAuthGuard` then `TenantGuard`)
fails with the `Unauthenticated` error — `UnauthorizedException`, distinct
from the `Forbidden` errors used for `TenantAccessDenied` and
`TenantMismatch` — and performs no membership lookup. -/
theorem guardChain_missing_principal_unauthenticated (db : Db) (req : Request)
    (h : req.user = none) :
    guardChain db req = (.error (.unauthorized "Unauthorized"), []) ∧
    (ApiError.unauthorized "Unauthorized" ≠ ApiError.forbidden "Tenant access denied") ∧
    (ApiError.unauthorized "Unauthorized" ≠ ApiError.forbidden "Tenant mismatch") := by
  refine ⟨?_, by simp, by simp⟩
  simp [guardChain, h]

theorem guardChain_missing_principal_unauthenticated_witness :
    (({ user := none, headerTenantId := some "t1",
        paramTenantId := some "t1" } : Request).user = none) ∧
    (guardChain ⟨[], [⟨"u1", "t1", "member"⟩], [], []⟩
        { user := none, headerTenantId := some "t1", paramTenantId := some "t1" } =
      (.error (.unauthorized "Unauthorized"), []) ∧
    (ApiError.unauthorized "Unauthorized" ≠ ApiError.forbidden "Tenant access denied") ∧
    (ApiError.unauthorized "Unauthorized" ≠ ApiError.forbidden "Tenant mismatch")) :=
  ⟨rfl, guardChain_missing_principal_unauthenticated
    ⟨[], [⟨"u1", "t1", "member"⟩], [], []⟩
    { user := none, headerTenantId := some "t1", paramTenantId := some "t1" } rfl⟩

/-- Claim C8: `emitToBoard` and `emitToTenant` never throw: for every gateway
state and every input they evaluate to `.ok` (never a JS `TypeError`); when
the socket server is not yet initialized they return without emitting
(`.ok none`); and when the adapter lists no members for the target room the
emission completes with an empty delivery list (a no-op). -/
theorem emitToBoard_characterization (g : Gateway) (tenantId boardId event : String) :
    emitToBoard g tenantId boardId event = .ok (
      match g.server with
      | none => none
      | some srv =>
        match srv.sockets with
        | none => none
        | some sockets =>
          some { room := tenantId ++ ":" ++ boardId, event := event,
                 delivered := roomMembers sockets (tenantId ++ ":" ++ boardId) }) := by
  match hsrv : g.server with
  | none => simp [emitToBoard, serverNotReady, hsrv]
  | some srv =>
    match hsk : srv.sockets with
    | none => simp [emitToBoard, serverNotReady, hsrv, hsk]
    | some sockets =>
      simp [emitToBoard, serverNotReady, hsrv, hsk, jsGet, roomMembers,
        Bind.bind, Except.bind]

theorem emitToTenant_characterization (g : Gateway) (tenantId event : String) :
    emitToTenant g tenantId event = .ok (
      match g.server with
      | none => none
      | some srv =>
        match srv.sockets with
        | none => none
        | some sockets =>
          some { room := tenantId ++ ":boards", event := event,
                 delivered := roomMembers sockets (tenantId ++ ":boards") }) := by
  match hsrv : g.server with
  | none => simp [emitToTenant, serverNotReady, hsrv]
  | some srv =>
    match hsk : srv.sockets with
    | none => simp [emitToTenant, serverNotReady, hsrv, hsk]
    | some sockets =>
      simp [emitToTenant, serverNotReady, hsrv, hsk, jsGet, roomMembers,
        Bind.bind, Except.bind]

/-- Claim C8: `emitToBoard` and `emitToTenant` never throw: for every gateway
state and every input they evaluate to `.ok` (never a JS `TypeError`); when
the socket server is not yet initialized they return without emitting
(`.ok none`); and when the adapter lists no members for the target room the
emission completes with an empty delivery list (a no-op). -/
theorem emit_never_throws (g : Gateway) (tenantId boardId event : String) :
    (∃ r, emitToBoard g tenantId boardId event = .ok r) ∧
    (∃ r, emitToTenant g tenantId event = .ok r) ∧
    (serverNotReady g = true →
      emitToBoard g tenantId boardId event = .ok none ∧
      emitToTenant g tenantId event = .ok none) ∧
    (∀ srv sockets, g.server = some srv → srv.sockets = some sockets →
      roomMembers sockets (tenantId ++ ":" ++ boardId) = [] →
      emitToBoard g tenantId boardId event =
        .ok (some { room := tenantId ++ ":" ++ boardId, event := event,
                    delivered := [] })) := by
  refine ⟨⟨_, emitToBoard_characterization g tenantId boardId event⟩,
    ⟨_, emitToTenant_characterization g tenantId event⟩, fun hnr => ?_,
    fun srv sockets hsrv hsk hroom => ?_⟩
  · rw [emitToBoard_characterization, emitToTenant_characterization]
    match hsrv : g.server with
    | none => simp
    | some srv =>
      match hsk : srv.sockets with
      | none => simp [hsk]
      | some sockets => simp [serverNotReady, hsrv, hsk] at hnr
  · rw [emitToBoard_characterization, hsrv]
    simp [hsk, hroom]

theorem emit_never_throws_witness :
    ((⟨some ⟨some ⟨some ⟨[]⟩⟩⟩⟩ : Gateway).server = some ⟨some ⟨some ⟨[]⟩⟩⟩) ∧
    (roomMembers ⟨some ⟨[]⟩⟩ ("t1" ++ ":" ++ "b1") = []) ∧
    emitToBoard ⟨some ⟨some ⟨some ⟨[]⟩⟩⟩⟩ "t1" "b1" "todo.created" =
      .ok (some { room := "t1" ++ ":" ++ "b1", event := "todo.created",
                  delivered := [] }) := by
  refine ⟨rfl, by decide, ?_⟩
  exact (emit_never_throws ⟨some ⟨some ⟨some ⟨[]⟩⟩⟩⟩ "t1" "b1" "todo.created").2.2.2
    ⟨some ⟨some ⟨[]⟩⟩⟩ ⟨some ⟨[]⟩⟩ rfl rfl (by decide)

/-- Claim C10 (amended is not needed — confirmed): `addUserToTenantByEmail` is
idempotent on the store: running it twice for the same (tenant, email) leaves
the database exactly as one run does; and when a membership row for
(user, tenant) already exists, the call leaves the database (hence that row
and its role) completely unchanged while still returning `{tenantId, userId}`. -/
theorem addUserToTenantByEmail_idempotent (db : Db) (tenantId email : String) :
    ((addUserToTenantByEmail
        (addUserToTenantByEmail db tenantId email).2 tenantId email).2 =
      (addUserToTenantByEmail db tenantId email).2) ∧
    (∀ u, db.users.find? (fun x => x.email = email) = some u →
      (∃ m, m ∈ db.memberships ∧ m.userId = u.id ∧ m.tenantId = tenantId) →
      addUserToTenantByEmail db tenantId email = (.ok (tenantId, u.id), db)) := by
  constructor
  · match hu : db.users.find? (fun x => x.email = email) with
    | none =>
      simp only [addUserToTenantByEmail, hu]
    | some u =>
      by_cases hex : (db.memberships.find?
          (fun m => (m.userId = u.id ∧ m.tenantId = tenantId : Bool))).isSome = true
      · have h1 : (addUserToTenantByEmail db tenantId email).2 = db := by
          simp only [addUserToTenantByEmail, hu]
          rw [if_pos hex]
        rw [h1]; exact h1
      · -- first call appends the row; the second call finds it and is a no-op
        have h1 : (addUserToTenantByEmail db tenantId email).2 =
            { db with memberships := db.memberships ++ [⟨u.id, tenantId, "member"⟩] } := by
          simp only [addUserToTenantByEmail, hu]
          rw [if_neg hex]
        have hfind2 : ((db.memberships ++ [(⟨u.id, tenantId, "member"⟩ : Membership)]).find?
            (fun m => (m.userId = u.id ∧ m.tenantId = tenantId : Bool))).isSome = true := by
          rw [List.find?_isSome]
          exact ⟨⟨u.id, tenantId, "member"⟩,
            List.mem_append_right _ (List.mem_singleton.mpr rfl), by simp⟩
        have hu2 : ({ db with memberships :=
            db.memberships ++ [(⟨u.id, tenantId, "member"⟩ : Membership)] } : Db).users.find?
            (fun x => x.email = email) = some u := hu
        have h2 : (addUserToTenantByEmail
            { db with memberships :=
              db.memberships ++ [(⟨u.id, tenantId, "member"⟩ : Membership)] }
            tenantId email).2 =
            { db with memberships :=
              db.memberships ++ [(⟨u.id, tenantId, "member"⟩ : Membership)] } := by
          simp only [addUserToTenantByEmail, hu2]
          rw [if_pos hfind2]
        rw [h1, h2]
  · rintro u hu ⟨m, hm, hmu, hmt⟩
    have hex : (db.memberships.find?
        (fun m => (m.userId = u.id ∧ m.tenantId = tenantId : Bool))).isSome = true := by
      rw [List.find?_isSome]
      exact ⟨m, hm, by simp [hmu, hmt]⟩
    simp only [addUserToTenantByEmail, hu]
    rw [if_pos hex]

theorem addUserToTenantByEmail_idempotent_witness :
    ((⟨[⟨"u1", "a@x.io"⟩], [⟨"u1", "t1", "admin"⟩], [], []⟩ : Db).users.find?
        (fun x => x.email = "a@x.io") = some ⟨"u1", "a@x.io"⟩) ∧
    (addUserToTenantByEmail
        (addUserToTenantByEmail ⟨[⟨"u1", "a@x.io"⟩], [⟨"u1", "t1", "admin"⟩], [], []⟩
          "t1" "a@x.io").2 "t1" "a@x.io").2 =
      (addUserToTenantByEmail ⟨[⟨"u1", "a@x.io"⟩], [⟨"u1", "t1", "admin"⟩], [], []⟩
        "t1" "a@x.io").2 ∧
    addUserToTenantByEmail ⟨[⟨"u1", "a@x.io"⟩], [⟨"u1", "t1", "admin"⟩], [], []⟩
        "t1" "a@x.io" =
      (.ok ("t1", "u1"),
        ⟨[⟨"u1", "a@x.io"⟩], [⟨"u1", "t1", "admin"⟩], [], []⟩) := by
  refine ⟨by decide, ?_, ?_⟩
  · exact (addUserToTenantByEmail_idempotent
      ⟨[⟨"u1", "a@x.io"⟩], [⟨"u1", "t1", "admin"⟩], [], []⟩ "t1" "a@x.io").1
  · exact (addUserToTenantByEmail_idempotent
      ⟨[⟨"u1", "a@x.io"⟩], [⟨"u1", "t1", "admin"⟩], [], []⟩ "t1" "a@x.io").2
      ⟨"u1", "a@x.io"⟩ (by decide) ⟨⟨"u1", "t1", "admin"⟩, by decide, rfl, rfl⟩

/-- Every scoped board lookup by (id, tenantId) fails when all rows carrying
that id belong to another tenant (id uniqueness makes that the only row). -/
theorem find?_board_scoped_none (boards : List Board) (bid T2 : String)
    (h : ∀ b ∈ boards, b.id = bid → b.tenantId ≠ T2) :
    boards.find? (fun b => decide (b.id = bid) && decide (b.tenantId = T2)) = none := by
  rw [List.find?_eq_none]
  intro x hx hpx
  simp only [Bool.and_eq_true, decide_eq_true_eq] at hpx
  exact h x hx hpx.1 hpx.2

theorem find?_todo_scoped_none (todos : List Todo) (tid T2 : String)
    (h : ∀ t ∈ todos, t.id = tid → t.tenantId ≠ T2) :
    todos.find? (fun t => decide (t.id = tid) && decide (t.tenantId = T2)) = none := by
  rw [List.find?_eq_none]
  intro x hx hpx
  simp only [Bool.and_eq_true, decide_eq_true_eq] at hpx
  exact h x hx hpx.1 hpx.2

/-- Claim C1: tenant isolation on reads. For tenants `T1 ≠ T2` (with globally
unique row ids, the database's primary-key invariant), a `getBoard`/`getTodo`
call authenticated against `T2` for a resource created under `T1` returns
`NotFound` when the caller is a member of `T2` and `TenantAccessDenied`
otherwise — never the resource's data, because the lookup predicate has both
the id and the tenantId. -/
theorem tenant_isolation_on_reads (s : State) (u T1 T2 : String)
    (hne : T1 ≠ T2)
    (hbnd : (s.db.boards.map Board.id).Nodup)
    (htnd : (s.db.todos.map Todo.id).Nodup) :
    (∀ b ∈ s.db.boards, b.tenantId = T1 →
      getBoard s u T2 b.id =
        .error (if isUserMemberOfTenant s.db u T2 then ApiError.notFound "Board not found"
                else ApiError.forbidden "Tenant access denied")) ∧
    (∀ t ∈ s.db.todos, t.tenantId = T1 →
      getTodo s u T2 t.id =
        .error (if isUserMemberOfTenant s.db u T2 then ApiError.notFound "Todo not found"
                else ApiError.forbidden "Tenant access denied")) := by
  constructor
  · intro b hb hbt
    by_cases hm : isUserMemberOfTenant s.db u T2
    · have hnone : s.db.boards.find?
          (fun x => decide (x.id = b.id) && decide (x.tenantId = T2)) = none := by
        refine find?_board_scoped_none _ _ _ (fun x hx hid => ?_)
        have : x = b := List.inj_on_of_nodup_map hbnd hx hb hid
        rw [this, hbt]
        exact hne
      simp [getBoard, hm, hnone]
    · simp [getBoard, hm]
  · intro t ht htt
    by_cases hm : isUserMemberOfTenant s.db u T2
    · have hnone : s.db.todos.find?
          (fun x => decide (x.id = t.id) && decide (x.tenantId = T2)) = none := by
        refine find?_todo_scoped_none _ _ _ (fun x hx hid => ?_)
        have : x = t := List.inj_on_of_nodup_map htnd hx ht hid
        rw [this, htt]
        exact hne
      simp [getTodo, hm, hnone]
    · simp [getTodo, hm]

theorem tenant_isolation_on_reads_witness :
    (("t1" : String) ≠ "t2") ∧
    ((⟨⟨[], [⟨"u2", "t2", "member"⟩], [⟨"b1", "t1", "Launch"⟩],
        [⟨"td1", "t1", "b1", "Task", "", .TODO, none⟩]⟩, []⟩ : State).db.boards.map
        Board.id).Nodup ∧
    ((⟨⟨[], [⟨"u2", "t2", "member"⟩], [⟨"b1", "t1", "Launch"⟩],
        [⟨"td1", "t1", "b1", "Task", "", .TODO, none⟩]⟩, []⟩ : State).db.todos.map
        Todo.id).Nodup ∧
    getBoard ⟨⟨[], [⟨"u2", "t2", "member"⟩], [⟨"b1", "t1", "Launch"⟩],
        [⟨"td1", "t1", "b1", "Task", "", .TODO, none⟩]⟩, []⟩ "u2" "t2" "b1" =
      .error (.notFound "Board not found") := by
  refine ⟨by decide, by decide, by decide, ?_⟩
  have h := (tenant_isolation_on_reads
    ⟨⟨[], [⟨"u2", "t2", "member"⟩], [⟨"b1", "t1", "Launch"⟩],
      [⟨"td1", "t1", "b1", "Task", "", .TODO, none⟩]⟩, []⟩ "u2" "t1" "t2"
    (by decide) (by decide) (by decide)).1
    ⟨"b1", "t1", "Launch"⟩ (by decide) rfl
  simpa using h

/-- Claim C2 counterexample: the realtime handshake performs no membership
lookup. With a verifier accepting token `tok1` for user `user1` and a
handshake presenting that token plus tenant `t1`, the connection is accepted,
bound to `t1`, and auto-joined to `t1:boards` — regardless of any membership
store (the gateway has no access to one), in particular when no Membership
row `(user1, t1)` exists. The claim required rejection and closure. -/
theorem handshake_no_membership_check_counterexample :
    handleConnection (fun tok => if tok = "tok1" then some "user1" else none)
      ⟨some "tok1", none, some "t1", none⟩ =
      some { userId := "user1", tenantId := "t1", rawTenantId := "t1",
             rooms := ["t1:boards"] } := by
  decide

/-- Claim C2 amended: on every realtime handshake the gateway verifies the
bearer credential and requires a tenant identifier to be present, but invokes
no membership check: whenever a (truthy) token and tenant identifier are
supplied and the JWT verifies, the connection is accepted and bound to the
requested tenant and auto-joins its `tenant:boards` room, for every membership
store alike (the gateway's only dependency is the JWT service). Membership is
enforced only on the REST path by the guard chain. -/
theorem handshake_verifies_jwt_only (verify : String → Option String)
    (hs : Handshake) (tok raw sub : String)
    (htok : jsOr hs.authToken hs.headerAuthorization = some tok)
    (htokne : tok ≠ "")
    (hraw : jsOr hs.authTenantId hs.headerTenantId = some raw)
    (hrawne : raw ≠ "")
    (hver : verify (stripBearer tok) = some sub) :
    handleConnection verify hs =
      some { userId := sub, tenantId := jsTrim raw, rawTenantId := raw,
             rooms := [raw ++ ":boards"] } := by
  have h1 : strTruthy (jsOr hs.authToken hs.headerAuthorization) = true := by
    rw [htok]; simpa [strTruthy] using htokne
  have h2 : strTruthy (jsOr hs.authTenantId hs.headerTenantId) = true := by
    rw [hraw]; simpa [strTruthy] using hrawne
  simp only [handleConnection, h1, h2, htok, hraw, hver, joinRoom]
  have h3 : strTruthy (some tok) = true := by simpa [strTruthy] using htokne
  have h4 : strTruthy (some raw) = true := by simpa [strTruthy] using hrawne
  simp [h3, h4]

theorem handshake_verifies_jwt_only_witness :
    (jsOr (Handshake.authToken ⟨some "Bearer tok9", none, some "t9", none⟩)
        (Handshake.headerAuthorization ⟨some "Bearer tok9", none, some "t9", none⟩) =
      some "Bearer tok9") ∧
    (("Bearer tok9" : String) ≠ "") ∧
    (jsOr (Handshake.authTenantId ⟨some "Bearer tok9", none, some "t9", none⟩)
        (Handshake.headerTenantId ⟨some "Bearer tok9", none, some "t9", none⟩) =
      some "t9") ∧
    (("t9" : String) ≠ "") ∧
    ((fun tok => if tok = "tok9" then some "user9" else none)
        (stripBearer "Bearer tok9") = some "user9") ∧
    handleConnection (fun tok => if tok = "tok9" then some "user9" else none)
        ⟨some "Bearer tok9", none, some "t9", none⟩ =
      some { userId := "user9", tenantId := jsTrim "t9", rawTenantId := "t9",
             rooms := ["t9" ++ ":boards"] } := by
  refine ⟨by decide, by decide, by decide, by decide, by decide, ?_⟩
  exact handshake_verifies_jwt_only
    (fun tok => if tok = "tok9" then some "user9" else none)
    ⟨some "Bearer tok9", none, some "t9", none⟩ "Bearer tok9" "t9" "user9"
    (by decide) (by decide) (by decide) (by decide) (by decide)

/-- Claim C6: indistinguishable 404 semantics. For a member caller, updating
or deleting an id that does not exist (state `s1`) and updating or deleting an
id that exists but belongs to a foreign tenant (state `s2`) produce identical
observable results: the same `NotFound` error with the same message, no state
change, and no side effects — for boards and for todos. -/
theorem mutation_404_indistinguishable (s1 s2 : State)
    (u T bid tid name : String) (patch : TodoPatch)
    (hm1 : isUserMemberOfTenant s1.db u T = true)
    (hm2 : isUserMemberOfTenant s2.db u T = true)
    (hA_b : ∀ b ∈ s1.db.boards, b.id ≠ bid)
    (hA_t : ∀ t ∈ s1.db.todos, t.id ≠ tid)
    (hB_bex : ∃ b ∈ s2.db.boards, b.id = bid ∧ b.tenantId ≠ T)
    (hB_tex : ∃ t ∈ s2.db.todos, t.id = tid ∧ t.tenantId ≠ T)
    (hB_b : ∀ b ∈ s2.db.boards, b.id = bid → b.tenantId ≠ T)
    (hB_t : ∀ t ∈ s2.db.todos, t.id = tid → t.tenantId ≠ T) :
    updateBoard s1 u T bid name = (.error (.notFound "Board not found"), s1, []) ∧
    updateBoard s2 u T bid name = (.error (.notFound "Board not found"), s2, []) ∧
    deleteBoard s1 u T bid = (.error (.notFound "Board not found"), s1, []) ∧
    deleteBoard s2 u T bid = (.error (.notFound "Board not found"), s2, []) ∧
    updateTodo s1 u T tid patch = (.error (.notFound "Todo not found"), s1, []) ∧
    updateTodo s2 u T tid patch = (.error (.notFound "Todo not found"), s2, []) ∧
    deleteTodo s1 u T tid = (.error (.notFound "Todo not found"), s1, []) ∧
    deleteTodo s2 u T tid = (.error (.notFound "Todo not found"), s2, []) := by
  have hnb1 : s1.db.boards.find?
      (fun b => decide (b.id = bid) && decide (b.tenantId = T)) = none :=
    find?_board_scoped_none _ _ _ (fun x hx hid => absurd hid (hA_b x hx))
  have hnb2 : s2.db.boards.find?
      (fun b => decide (b.id = bid) && decide (b.tenantId = T)) = none :=
    find?_board_scoped_none _ _ _ hB_b
  have hnt1 : s1.db.todos.find?
      (fun t => decide (t.id = tid) && decide (t.tenantId = T)) = none :=
    find?_todo_scoped_none _ _ _ (fun x hx hid => absurd hid (hA_t x hx))
  have hnt2 : s2.db.todos.find?
      (fun t => decide (t.id = tid) && decide (t.tenantId = T)) = none :=
    find?_todo_scoped_none _ _ _ hB_t
  refine ⟨?_, ?_, ?_, ?_, ?_, ?_, ?_, ?_⟩
  · simp [updateBoard, hm1, hnb1]
  · simp [updateBoard, hm2, hnb2]
  · simp [deleteBoard, hm1, hnb1]
  · simp [deleteBoard, hm2, hnb2]
  · simp [updateTodo, hm1, hnt1]
  · simp [updateTodo, hm2, hnt2]
  · simp [deleteTodo, hm1, hnt1]
  · simp [deleteTodo, hm2, hnt2]

theorem mutation_404_indistinguishable_witness :
    (isUserMemberOfTenant
        (⟨⟨[], [⟨"u1", "t1", "member"⟩], [], []⟩, []⟩ : State).db "u1" "t1" = true) ∧
    (isUserMemberOfTenant
        (⟨⟨[], [⟨"u1", "t1", "member"⟩], [⟨"b9", "t2", "Other"⟩],
          [⟨"td9", "t2", "b9", "X", "", .TODO, none⟩]⟩, []⟩ : State).db "u1" "t1"
      = true) ∧
    updateBoard ⟨⟨[], [⟨"u1", "t1", "member"⟩], [], []⟩, []⟩ "u1" "t1" "b9" "N" =
      (.error (.notFound "Board not found"),
        ⟨⟨[], [⟨"u1", "t1", "member"⟩], [], []⟩, []⟩, []) ∧
    updateBoard ⟨⟨[], [⟨"u1", "t1", "member"⟩], [⟨"b9", "t2", "Other"⟩],
        [⟨"td9", "t2", "b9", "X", "", .TODO, none⟩]⟩, []⟩ "u1" "t1" "b9" "N" =
      (.error (.notFound "Board not found"),
        ⟨⟨[], [⟨"u1", "t1", "member"⟩], [⟨"b9", "t2", "Other"⟩],
          [⟨"td9", "t2", "b9", "X", "", .TODO, none⟩]⟩, []⟩, []) ∧
    deleteTodo ⟨⟨[], [⟨"u1", "t1", "member"⟩], [], []⟩, []⟩ "u1" "t1" "td9" =
      (.error (.notFound "Todo not found"),
        ⟨⟨[], [⟨"u1", "t1", "member"⟩], [], []⟩, []⟩, []) ∧
    deleteTodo ⟨⟨[], [⟨"u1", "t1", "member"⟩], [⟨"b9", "t2", "Other"⟩],
        [⟨"td9", "t2", "b9", "X", "", .TODO, none⟩]⟩, []⟩ "u1" "t1" "td9" =
      (.error (.notFound "Todo not found"),
        ⟨⟨[], [⟨"u1", "t1", "member"⟩], [⟨"b9", "t2", "Other"⟩],
          [⟨"td9", "t2", "b9", "X", "", .TODO, none⟩]⟩, []⟩, []) := by
  have h := mutation_404_indistinguishable
    ⟨⟨[], [⟨"u1", "t1", "member"⟩], [], []⟩, []⟩
    ⟨⟨[], [⟨"u1", "t1", "member"⟩], [⟨"b9", "t2", "Other"⟩],
      [⟨"td9", "t2", "b9", "X", "", .TODO, none⟩]⟩, []⟩
    "u1" "t1" "b9" "td9" "N" {} (by decide) (by decide) (by decide) (by decide)
    ⟨⟨"b9", "t2", "Other"⟩, by decide, by decide, by decide⟩
    ⟨⟨"td9", "t2", "b9", "X", "", .TODO, none⟩, by decide, by decide, by decide⟩
    (by decide) (by decide)
  exact ⟨by decide, by decide, h.1, h.2.1, h.2.2.2.2.2.2.1, h.2.2.2.2.2.2.2⟩

/-- Claim C9: post-mutation effect order. Every successful mutation (create,
update, delete of a board or todo) produces exactly the effect trace
`[store write, cache invalidation of the affected first-page key, realtime
emission]` — so the invalidation is sequenced strictly before the emission and
both come after the store write commits. -/
theorem post_mutation_effect_order (s : State)
    (u T bid tid name title newId : String) (d : Option String)
    (st : TodoStatus) (asg : Option String) (patch : TodoPatch) :
    (∀ x, (createBoard s u T name newId).1 = .ok x →
      (createBoard s u T name newId).2.2 =
        [.dbWrite, .cacheInvalidate ("tenant:" ++ T ++ ":boards:first:20"),
         .emitTenant T "board.created"]) ∧
    (∀ x, (updateBoard s u T bid name).1 = .ok x →
      (updateBoard s u T bid name).2.2 =
        [.dbWrite, .cacheInvalidate ("tenant:" ++ T ++ ":boards:first:20"),
         .emitTenant T "board.updated"]) ∧
    (∀ x, (deleteBoard s u T bid).1 = .ok x →
      (deleteBoard s u T bid).2.2 =
        [.dbWrite, .cacheInvalidate ("tenant:" ++ T ++ ":boards:first:20"),
         .emitTenant T "board.deleted"]) ∧
    (∀ x, (createTodo s u T bid title d st asg newId).1 = .ok x →
      (createTodo s u T bid title d st asg newId).2.2 =
        [.dbWrite,
         .cacheInvalidate ("tenant:" ++ T ++ ":board:" ++ bid ++ ":todos:first:20"),
         .emitBoard T bid "todo.created"]) ∧
    (∀ x, (updateTodo s u T tid patch).1 = .ok x →
      ∃ parent,
        (updateTodo s u T tid patch).2.2 =
          [.dbWrite,
           .cacheInvalidate ("tenant:" ++ T ++ ":board:" ++ parent ++ ":todos:first:20"),
           .emitBoard T parent "todo.updated"]) ∧
    (∀ x, (deleteTodo s u T tid).1 = .ok x →
      ∃ parent,
        (deleteTodo s u T tid).2.2 =
          [.dbWrite,
           .cacheInvalidate ("tenant:" ++ T ++ ":board:" ++ parent ++ ":todos:first:20"),
           .emitBoard T parent "todo.deleted"]) := by
  by_cases hm : isUserMemberOfTenant s.db u T
  · refine ⟨?_, ?_, ?_, ?_, ?_, ?_⟩ <;> intro x hx
    · simp [createBoard, hm]
    · rcases hb : s.db.boards.find?
          (fun b => decide (b.id = bid) && decide (b.tenantId = T)) with _ | b
      · simp [updateBoard, hm, hb] at hx
      · have hcnt : ¬ ((s.db.boards.filter
            (fun b => decide (b.id = bid) && decide (b.tenantId = T))).length = 0) := by
          intro h0
          have hmem := List.mem_of_find?_eq_some hb
          have hpb := List.find?_some hb
          have : b ∈ s.db.boards.filter
              (fun b => decide (b.id = bid) && decide (b.tenantId = T)) :=
            List.mem_filter.mpr ⟨hmem, hpb⟩
          rw [List.length_eq_zero] at h0
          simp [h0] at this
        simp [updateBoard, hm, hb, hcnt]
    · rcases hb : s.db.boards.find?
          (fun b => decide (b.id = bid) && decide (b.tenantId = T)) with _ | b
      · simp [deleteBoard, hm, hb] at hx
      · have hcnt : ¬ ((s.db.boards.filter
            (fun b => decide (b.id = bid) && decide (b.tenantId = T))).length = 0) := by
          intro h0
          have hmem := List.mem_of_find?_eq_some hb
          have hpb := List.find?_some hb
          have : b ∈ s.db.boards.filter
              (fun b => decide (b.id = bid) && decide (b.tenantId = T)) :=
            List.mem_filter.mpr ⟨hmem, hpb⟩
          rw [List.length_eq_zero] at h0
          simp [h0] at this
        simp [deleteBoard, hm, hb, hcnt]
    · rcases hb : s.db.boards.find?
          (fun b => decide (b.id = bid) && decide (b.tenantId = T)) with _ | b
      · simp [createTodo, hm, hb] at hx
      · simp [createTodo, hm, hb]
    · rcases ht : s.db.todos.find?
          (fun t => decide (t.id = tid) && decide (t.tenantId = T)) with _ | t0
      · simp [updateTodo, hm, ht] at hx
      · have hcnt : ¬ ((s.db.todos.filter
            (fun t => decide (t.id = tid) && decide (t.tenantId = T))).length = 0) := by
          intro h0
          have hmem := List.mem_of_find?_eq_some ht
          have hpt := List.find?_some ht
          have : t0 ∈ s.db.todos.filter
              (fun t => decide (t.id = tid) && decide (t.tenantId = T)) :=
            List.mem_filter.mpr ⟨hmem, hpt⟩
          rw [List.length_eq_zero] at h0
          simp [h0] at this
        refine ⟨t0.boardId, ?_⟩
        simp [updateTodo, hm, ht, hcnt]
    · rcases ht : s.db.todos.find?
          (fun t => decide (t.id = tid) && decide (t.tenantId = T)) with _ | t0
      · simp [deleteTodo, hm, ht] at hx
      · have hcnt : ¬ ((s.db.todos.filter
            (fun t => decide (t.id = tid) && decide (t.tenantId = T))).length = 0) := by
          intro h0
          have hmem := List.mem_of_find?_eq_some ht
          have hpt := List.find?_some ht
          have : t0 ∈ s.db.todos.filter
              (fun t => decide (t.id = tid) && decide (t.tenantId = T)) :=
            List.mem_filter.mpr ⟨hmem, hpt⟩
          rw [List.length_eq_zero] at h0
          simp [h0] at this
        refine ⟨t0.boardId, ?_⟩
        simp [deleteTodo, hm, ht, hcnt]
  · refine ⟨?_, ?_, ?_, ?_, ?_, ?_⟩ <;> intro x hx <;>
      simp [createBoard, updateBoard, deleteBoard, createTodo, updateTodo,
        deleteTodo, hm] at hx

theorem post_mutation_effect_order_witness :
    ((createBoard ⟨⟨[], [⟨"u1", "t1", "member"⟩], [], []⟩, []⟩
        "u1" "t1" "My board" "b1").1 = .ok ⟨"b1", "My board"⟩) ∧
    (createBoard ⟨⟨[], [⟨"u1", "t1", "member"⟩], [], []⟩, []⟩
        "u1" "t1" "My board" "b1").2.2 =
      [.dbWrite, .cacheInvalidate ("tenant:" ++ "t1" ++ ":boards:first:20"),
       .emitTenant "t1" "board.created"] := by
  refine ⟨rfl, ?_⟩
  exact (post_mutation_effect_order ⟨⟨[], [⟨"u1", "t1", "member"⟩], [], []⟩, []⟩
    "u1" "t1" "b" "td" "My board" "ti" "b1" none .TODO none {}).1
    ⟨"b1", "My board"⟩ rfl

/-- Claim C3, failing evaluation: the first-page cache is keyed by the
requested limit (`tenant:<T>:boards:first:<limit>`), but every mutation
deletes only the literal default-limit key `tenant:<T>:boards:first:20`. For
the sequence create → list(limit 5) → update → list(limit 5) under one tenant,
the second first-page list returns the cached pre-update envelope (board name
still "A" although the store now holds "B"), contradicting the claim that
each mutation invalidates the cached first page for the affected scope. -/
theorem cache_staleness_at_nondefault_limit :
    (createBoard ⟨⟨[⟨"u1", "u1@x.io"⟩], [⟨"u1", "t1", "member"⟩], [], []⟩, []⟩
        "u1" "t1" "A" "b1").1 = .ok ⟨"b1", "A"⟩ ∧
    (listBoards (createBoard
        ⟨⟨[⟨"u1", "u1@x.io"⟩], [⟨"u1", "t1", "member"⟩], [], []⟩, []⟩
        "u1" "t1" "A" "b1").2.1 "u1" "t1" none 5).1 =
      .ok ⟨[⟨"b1", "A"⟩], ⟨none, false⟩⟩ ∧
    (updateBoard (listBoards (createBoard
        ⟨⟨[⟨"u1", "u1@x.io"⟩], [⟨"u1", "t1", "member"⟩], [], []⟩, []⟩
        "u1" "t1" "A" "b1").2.1 "u1" "t1" none 5).2.1 "u1" "t1" "b1" "B").1 =
      .ok ⟨"b1", "B"⟩ ∧
    (updateBoard (listBoards (createBoard
        ⟨⟨[⟨"u1", "u1@x.io"⟩], [⟨"u1", "t1", "member"⟩], [], []⟩, []⟩
        "u1" "t1" "A" "b1").2.1 "u1" "t1" none 5).2.1 "u1" "t1" "b1" "B").2.1.db.boards =
      [⟨"b1", "t1", "B"⟩] ∧
    (listBoards (updateBoard (listBoards (createBoard
        ⟨⟨[⟨"u1", "u1@x.io"⟩], [⟨"u1", "t1", "member"⟩], [], []⟩, []⟩
        "u1" "t1" "A" "b1").2.1 "u1" "t1" none 5).2.1 "u1" "t1" "b1" "B").2.1
        "u1" "t1" none 5).1 =
      .ok ⟨[⟨"b1", "A"⟩], ⟨none, false⟩⟩ := by
  decide

/-- With the default page size 20 — the only limit whose key the mutations
delete — the same sequence is coherent: the second list reflects the update. -/
theorem cache_coherent_at_default_limit :
    (listBoards (updateBoard (listBoards (createBoard
        ⟨⟨[⟨"u1", "u1@x.io"⟩], [⟨"u1", "t1", "member"⟩], [], []⟩, []⟩
        "u1" "t1" "A" "b1").2.1 "u1" "t1" none 20).2.1 "u1" "t1" "b1" "B").2.1
        "u1" "t1" none 20).1 =
      .ok ⟨[⟨"b1", "B"⟩], ⟨none, false⟩⟩ := by
  decide

/-- Splitting at the first colon is unambiguous for colon-free front parts. -/
theorem cons_colon_inj : ∀ (a b x y : List Char), ':' ∉ a → ':' ∉ b →
    a ++ ':' :: x = b ++ ':' :: y → a = b ∧ x = y := by
  intro a
  induction a with
  | nil =>
    intro b x y _ hb h
    cases b with
    | nil => simpa using h
    | cons d bs =>
      simp only [List.nil_append, List.cons_append, List.cons.injEq] at h
      exfalso
      apply hb
      rw [← h.1]
      exact List.mem_cons_self _ _
  | cons c as ih =>
    intro b x y ha hb h
    cases b with
    | nil =>
      simp only [List.cons_append, List.nil_append, List.cons.injEq] at h
      exfalso
      apply ha
      rw [h.1]
      exact List.mem_cons_self _ _
    | cons d bs =>
      simp only [List.cons_append, List.cons.injEq] at h
      obtain ⟨hcd, hrest⟩ := h
      have ha' : ':' ∉ as := fun hm => ha (List.mem_cons_of_mem _ hm)
      have hb' : ':' ∉ bs := fun hm => hb (List.mem_cons_of_mem _ hm)
      obtain ⟨h1, h2⟩ := ih bs x y ha' hb' hrest
      exact ⟨by rw [hcd, h1], h2⟩

theorem append_colon_inj (A B x y : String) (hA : colonFree A) (hB : colonFree B)
    (h : A ++ ":" ++ x = B ++ ":" ++ y) : A = B := by
  have hd : A.data ++ ':' :: x.data = B.data ++ ':' :: y.data := by
    have h' := congrArg String.data h
    simpa [String.data_append] using h'
  obtain ⟨h1, _⟩ := cons_colon_inj A.data B.data x.data y.data hA hB hd
  cases A
  cases B
  exact congrArg String.mk h1

theorem roomEncodesTenant_unique (A B r : String) (hA : colonFree A)
    (hB : colonFree B) (hne : A ≠ B) (hr : roomEncodesTenant A r) :
    ¬ roomEncodesTenant B r := by
  rintro ⟨y, hy⟩
  obtain ⟨x, hx⟩ := hr
  exact hne (append_colon_inj A B x y hA hB (by rw [← hx, ← hy]))

theorem mem_joinRoom (rooms : List String) (room : String) :
    room ∈ joinRoom rooms room := by
  by_cases h : room ∈ rooms <;> simp [joinRoom, h]

theorem applyMsg_rawTenantId (c : Conn) (m : RtMsg) :
    (applyMsg c m).rawTenantId = c.rawTenantId := by
  cases m <;> simp only [applyMsg, joinBoardMsg, leaveBoardMsg] <;> split <;> rfl

theorem applyMsg_rooms_encode (raw : String) (c : Conn) (m : RtMsg)
    (hraw : c.rawTenantId = raw)
    (hr : ∀ r ∈ c.rooms, roomEncodesTenant raw r) :
    ∀ r ∈ (applyMsg c m).rooms, roomEncodesTenant raw r := by
  cases m with
  | joinBoard p =>
    simp only [applyMsg, joinBoardMsg]
    split
    · exact hr
    · intro r hrm
      simp only [joinRoom] at hrm
      split at hrm
      · exact hr r hrm
      · rcases List.mem_append.mp hrm with h | h
        · exact hr r h
        · rw [List.mem_singleton] at h
          exact ⟨_, by rw [h, hraw]⟩
  | leaveBoard p =>
    simp only [applyMsg, leaveBoardMsg]
    split
    · exact hr
    · intro r hrm
      exact hr r (List.mem_of_mem_filter hrm)

theorem applyMsgs_rooms_encode (raw : String) : ∀ (ms : List RtMsg) (c : Conn),
    c.rawTenantId = raw → (∀ r ∈ c.rooms, roomEncodesTenant raw r) →
    ∀ r ∈ (applyMsgs c ms).rooms, roomEncodesTenant raw r := by
  intro ms
  induction ms with
  | nil => intro c _ hr; simpa [applyMsgs] using hr
  | cons m ms ih =>
    intro c hraw hr
    have h1 := applyMsg_rawTenantId c m
    exact ih (applyMsg c m) (by rw [h1, hraw])
      (applyMsg_rooms_encode raw c m hraw hr)

theorem applyMsgs_rawTenantId : ∀ (ms : List RtMsg) (c : Conn),
    (applyMsgs c ms).rawTenantId = c.rawTenantId := by
  intro ms
  induction ms with
  | nil => intro c; rfl
  | cons m ms ih =>
    intro c
    have h1 := applyMsg_rawTenantId c m
    calc (applyMsgs (applyMsg c m) ms).rawTenantId
        = (applyMsg c m).rawTenantId := ih (applyMsg c m)
      _ = c.rawTenantId := h1

/-- Every successfully bound connection starts with the raw handshake tenant
recorded, the trimmed value as its bound tenantId, and exactly the auto-joined
tenant-wide room. -/
theorem handleConnection_some (verify : String → Option String) (hs : Handshake)
    (c : Conn) (h : handleConnection verify hs = some c) :
    c.tenantId = jsTrim c.rawTenantId ∧ c.rooms = [c.rawTenantId ++ ":boards"] := by
  rw [handleConnection] at h
  split at h
  · cases h
  · split at h
    · split at h
      · cases h
      · cases h
        refine ⟨rfl, ?_⟩
        simp [joinRoom]
    · cases h

/-- Claim C4 counterexample. A handshake supplying tenant identifier `"t1 "`
(trailing space) is accepted and bound to tenant `"t1"` (the gateway stores
the trimmed value), but `join_board("b1")` puts the socket in room `"t1 :b1"`
built from the raw closure variable — not in `"t1:b1"` as the claim requires
for a connection bound to `A = "t1"` — and every room it occupies encodes the
distinct colon-free identifier `"t1 "`. -/
theorem room_naming_uses_raw_tenant_counterexample :
    (handleConnection (fun tok => if tok = "tok1" then some "user1" else none)
        ⟨some "tok1", none, some "t1 ", none⟩).map
        (fun c => joinBoardMsg c (some "b1")) =
      some { userId := "user1", tenantId := "t1", rawTenantId := "t1 ",
             rooms := ["t1 :boards", "t1 :b1"] } ∧
    ("t1:b1" ∉ (["t1 :boards", "t1 :b1"] : List String)) ∧
    roomEncodesTenant "t1 " "t1 :b1" ∧
    colonFree "t1 " ∧ colonFree "t1" ∧ ("t1 " ≠ "t1") := by
  refine ⟨by decide, by decide, ⟨"b1", by decide⟩, ?_, ?_, by decide⟩
  · intro hmem
    simp only [String.data] at hmem
    revert hmem
    decide
  · intro hmem
    simp only [String.data] at hmem
    revert hmem
    decide

/-- Claim C4 amended: room names are built from the raw handshake-supplied
tenant identifier (the bound tenantId is its trim; the two coincide whenever
the supplied identifier has no surrounding whitespace). For every connection:
`join_board(boardId)` adds exactly the room `raw ++ ":" ++ trim(boardId)`;
every room the connection ever occupies (through any join/leave sequence)
encodes its raw tenant identifier; for colon-free identifiers `A ≠ B` a room
encoding `A` never encodes `B`; hence two connections whose handshakes
presented different colon-free tenant identifiers never share any room, even
when joining the same literal boardId. -/
theorem room_isolation_raw_tenant :
    (∀ (c : Conn) (payload : Option String),
      jsTrim (payload.getD "") ≠ "" →
      (joinBoardMsg c payload).rooms =
        joinRoom c.rooms (c.rawTenantId ++ ":" ++ jsTrim (payload.getD "")) ∧
      (c.rawTenantId ++ ":" ++ jsTrim (payload.getD "")) ∈
        (joinBoardMsg c payload).rooms) ∧
    (∀ (verify : String → Option String) (hs : Handshake) (c : Conn),
      handleConnection verify hs = some c →
      c.tenantId = jsTrim c.rawTenantId ∧ c.rooms = [c.rawTenantId ++ ":boards"]) ∧
    (∀ (verify : String → Option String) (hs : Handshake) (c : Conn)
      (ms : List RtMsg),
      handleConnection verify hs = some c →
      ∀ r ∈ (applyMsgs c ms).rooms, roomEncodesTenant c.rawTenantId r) ∧
    (∀ A B r, colonFree A → colonFree B → A ≠ B →
      roomEncodesTenant A r → ¬ roomEncodesTenant B r) ∧
    (∀ (verify₁ verify₂ : String → Option String) (hs₁ hs₂ : Handshake)
      (c₁ c₂ : Conn) (ms₁ ms₂ : List RtMsg),
      handleConnection verify₁ hs₁ = some c₁ →
      handleConnection verify₂ hs₂ = some c₂ →
      colonFree c₁.rawTenantId → colonFree c₂.rawTenantId →
      c₁.rawTenantId ≠ c₂.rawTenantId →
      ∀ r ∈ (applyMsgs c₁ ms₁).rooms, r ∉ (applyMsgs c₂ ms₂).rooms) := by
  have hjoin : ∀ (c : Conn) (payload : Option String),
      jsTrim (payload.getD "") ≠ "" →
      (joinBoardMsg c payload).rooms =
        joinRoom c.rooms (c.rawTenantId ++ ":" ++ jsTrim (payload.getD "")) ∧
      (c.rawTenantId ++ ":" ++ jsTrim (payload.getD "")) ∈
        (joinBoardMsg c payload).rooms := by
    intro c payload hne
    have : (joinBoardMsg c payload).rooms =
        joinRoom c.rooms (c.rawTenantId ++ ":" ++ jsTrim (payload.getD "")) := by
      simp only [joinBoardMsg]
      rw [if_neg hne]
    exact ⟨this, this ▸ mem_joinRoom _ _⟩
  have hinv : ∀ (verify : String → Option String) (hs : Handshake) (c : Conn)
      (ms : List RtMsg),
      handleConnection verify hs = some c →
      ∀ r ∈ (applyMsgs c ms).rooms, roomEncodesTenant c.rawTenantId r := by
    intro verify hs c ms hc
    refine applyMsgs_rooms_encode c.rawTenantId ms c rfl ?_
    intro r hr
    rw [(handleConnection_some verify hs c hc).2, List.mem_singleton] at hr
    refine ⟨"boards", ?_⟩
    rw [hr, String.append_assoc]
    exact congrArg (fun z => c.rawTenantId ++ z) (by decide)
  refine ⟨hjoin, fun verify hs c hc => handleConnection_some verify hs c hc,
    hinv, fun A B r hA hB hne h1 => roomEncodesTenant_unique A B r hA hB hne h1,
    ?_⟩
  intro v₁ v₂ hs₁ hs₂ c₁ c₂ ms₁ ms₂ hc₁ hc₂ hcf₁ hcf₂ hne r hr₁ hr₂
  exact roomEncodesTenant_unique c₁.rawTenantId c₂.rawTenantId r hcf₁ hcf₂ hne
    (hinv v₁ hs₁ c₁ ms₁ hc₁ r hr₁) (hinv v₂ hs₂ c₂ ms₂ hc₂ r hr₂)

theorem room_isolation_raw_tenant_witness :
    (jsTrim ((some "b1").getD "") ≠ "") ∧
    (handleConnection (fun tok => if tok = "tok1" then some "user1" else none)
        ⟨some "tok1", none, some "tA", none⟩ =
      some { userId := "user1", tenantId := "tA", rawTenantId := "tA",
             rooms := ["tA:boards"] }) ∧
    (handleConnection (fun tok => if tok = "tok2" then some "user2" else none)
        ⟨some "tok2", none, some "tB", none⟩ =
      some { userId := "user2", tenantId := "tB", rawTenantId := "tB",
             rooms := ["tB:boards"] }) ∧
    (joinBoardMsg (⟨"user1", "tA", "tA", ["tA:boards"]⟩ : Conn) (some "b1")).rooms =
      joinRoom ["tA:boards"] ("tA" ++ ":" ++ jsTrim ((some "b1").getD "")) ∧
    (∀ r ∈ (applyMsgs (⟨"user1", "tA", "tA", ["tA:boards"]⟩ : Conn)
        [.joinBoard (some "b1")]).rooms,
      r ∉ (applyMsgs (⟨"user2", "tB", "tB", ["tB:boards"]⟩ : Conn)
        [.joinBoard (some "b1")]).rooms) := by
  refine ⟨by decide, by decide, by decide, ?_, ?_⟩
  · exact ((room_isolation_raw_tenant.1
      (⟨"user1", "tA", "tA", ["tA:boards"]⟩ : Conn) (some "b1") (by decide)).1)
  · exact room_isolation_raw_tenant.2.2.2.2
      (fun tok => if tok = "tok1" then some "user1" else none)
      (fun tok => if tok = "tok2" then some "user2" else none)
      ⟨some "tok1", none, some "tA", none⟩ ⟨some "tok2", none, some "tB", none⟩
      (⟨"user1", "tA", "tA", ["tA:boards"]⟩ : Conn)
      (⟨"user2", "tB", "tB", ["tB:boards"]⟩ : Conn)
      [.joinBoard (some "b1")] [.joinBoard (some "b1")]
      (by decide) (by decide)
      (by intro hmem; simp only [String.data] at hmem; revert hmem; decide)
      (by intro hmem; simp only [String.data] at hmem; revert hmem; decide)
      (by decide)

/-! ### Pure pagination lemmas (shared by listBoards and listTodos) -/

theorem dropWhile_ne_key_get {α : Type} (key : α → String) :
    ∀ (l : List α) (k : Nat) (hk : k < l.length),
    (l.map key).Nodup →
    l.dropWhile (fun r => key r ≠ key (l.get ⟨k, hk⟩)) = l.drop k := by
  intro l
  induction l with
  | nil => intro k hk; simp at hk
  | cons x xs ih =>
    intro k hk hnd
    match k with
    | 0 =>
      have hx : (fun r => (key r ≠ key ((x :: xs).get ⟨0, hk⟩) : Bool)) x = false := by
        simp
      rw [List.dropWhile_cons_of_neg (by simp [hx]), List.drop_zero]
    | k + 1 =>
      have hk' : k < xs.length := by simpa using hk
      have hget : (x :: xs).get ⟨k + 1, hk⟩ = xs.get ⟨k, hk'⟩ := rfl
      have hmem : key (xs.get ⟨k, hk'⟩) ∈ xs.map key :=
        List.mem_map.mpr ⟨xs.get ⟨k, hk'⟩, List.get_mem xs k hk', rfl⟩
      have hnd2 : key x ∉ xs.map key ∧ (xs.map key).Nodup := by
        rw [List.map_cons, List.nodup_cons] at hnd
        exact hnd
      have hxne : key x ≠ key (xs.get ⟨k, hk'⟩) := by
        intro hcontra
        exact hnd2.1 (hcontra ▸ hmem)
      rw [hget, List.dropWhile_cons_of_pos (by simpa using hxne), List.drop_succ_cons,
        ih k hk' hnd2.2]

theorem afterCursor_at_index {α : Type} (key : α → String) (l : List α)
    (k : Nat) (hk : k < l.length)
    (hnd : (l.map key).Nodup) (hne : key (l.get ⟨k, hk⟩) ≠ "") :
    afterCursor key l (some (key (l.get ⟨k, hk⟩))) = l.drop (k + 1) := by
  show (if key (l.get ⟨k, hk⟩) = "" then l
    else (l.dropWhile (fun r => key r ≠ key (l.get ⟨k, hk⟩))).drop 1) = l.drop (k + 1)
  rw [if_neg hne, dropWhile_ne_key_get key l k hk hnd]
  rw [List.drop_drop]

theorem pageOf_eq_afterCursor {α : Type} (key : α → String) (rows : List α)
    (cursor : Option String) (limit : Nat) :
    pageOf key rows cursor limit = pageOf key (afterCursor key rows cursor) none limit :=
  rfl

theorem pageOf_none_data {α : Type} (key : α → String) (rest : List α) (limit : Nat) :
    (pageOf key rest none limit).data = rest.take limit := by
  show ((rest.take (limit + 1)).take limit) = rest.take limit
  rw [List.take_take]
  congr 1
  omega

theorem pageOf_none_query {α : Type} (key : α → String) (rest : List α) (limit : Nat) :
    (pageOf key rest none limit).query = rest.take (limit + 1) := rfl

theorem pageOf_none_nextCursor {α : Type} (key : α → String) (rest : List α)
    (limit : Nat) :
    (pageOf key rest none limit).nextCursor =
      (if limit < rest.length then (rest.take limit).getLast?.map key
       else none) := by
  show (if limit < (rest.take (limit + 1)).length
      then ((rest.take (limit + 1)).take limit).getLast?.map key else none) = _
  have hdd : (rest.take (limit + 1)).take limit = rest.take limit := by
    rw [List.take_take]
    congr 1
    omega
  rw [List.length_take, hdd]
  by_cases h : limit < rest.length
  · rw [if_pos (by omega), if_pos h]
  · rw [if_neg (by omega), if_neg h]

theorem pageOf_hasMore {α : Type} (key : α → String) (rest : List α)
    (cursor : Option String) (limit : Nat) :
    (pageOf key rest cursor limit).hasMore =
      strTruthy (pageOf key rest cursor limit).nextCursor := rfl

theorem getLast?_take_of_le {α : Type} (l : List α) (n : Nat) (h1 : 1 ≤ n)
    (h2 : n ≤ l.length) :
    (l.take n).getLast? = l[n - 1]? := by
  rw [List.getLast?_eq_getElem?, List.length_take]
  have hmin : min n l.length = n := by omega
  rw [hmin]
  simp only [List.getElem?_take]
  rw [if_pos (by omega)]

theorem expectedPages_of_le {α : Type} (key : α → String) (limit : Nat)
    (l : List α) (h : l.length ≤ limit) :
    expectedPages key limit l = [⟨l, none, false⟩] := by
  rw [expectedPages]
  exact dif_pos (Or.inl h)

theorem expectedPages_of_lt {α : Type} (key : α → String) (limit : Nat)
    (l : List α) (hlim : 1 ≤ limit) (h : limit < l.length) :
    expectedPages key limit l =
      ⟨l.take limit, (l.take limit).getLast?.map key, true⟩ ::
        expectedPages key limit (l.drop limit) := by
  rw [expectedPages]
  refine dif_neg ?_
  rintro (h1 | h2) <;> omega

theorem getElem?_drop_get {α : Type} (l : List α) (m i : Nat) (h : m + i < l.length) :
    (l.drop m)[i]? = some (l.get ⟨m + i, h⟩) := by
  have hlt : i < (l.drop m).length := by
    rw [List.length_drop]
    omega
  rw [List.getElem?_eq_getElem hlt]
  congr 1
  rw [List.getElem_drop]
  exact (List.get_eq_getElem l ⟨m + i, h⟩).symm

/-- One cursor-following step: from any in-range cursor position the process
produces exactly the expected page chunks of the remaining suffix. -/
theorem followPure_at_index {α : Type} (key : α → String) (l : List α)
    (limit : Nat) (hlim : 1 ≤ limit) (hnd : (l.map key).Nodup)
    (hne : ∀ x ∈ l, key x ≠ "") :
    ∀ (fuel k : Nat) (hk : k < l.length), l.length - k ≤ fuel →
    followPure key l limit fuel (some (key (l.get ⟨k, hk⟩))) =
      expectedPages key limit (l.drop (k + 1)) := by
  intro fuel
  induction fuel with
  | zero => intro k hk hf; omega
  | succ fuel ih =>
    intro k hk hf
    have hkey_ne : key (l.get ⟨k, hk⟩) ≠ "" := hne _ (List.get_mem l k hk)
    have hac : afterCursor key l (some (key (l.get ⟨k, hk⟩))) = l.drop (k + 1) :=
      afterCursor_at_index key l k hk hnd hkey_ne
    have hpage : pageOf key l (some (key (l.get ⟨k, hk⟩))) limit =
        pageOf key (l.drop (k + 1)) none limit := by
      rw [pageOf_eq_afterCursor, hac]
    have hrestlen : (l.drop (k + 1)).length = l.length - (k + 1) := by
      rw [List.length_drop]
    simp only [followPure, hpage]
    by_cases hmore : limit < (l.drop (k + 1)).length
    · have hkl : k + limit < l.length := by omega
      have hidx : (k + 1) + (limit - 1) = k + limit := by omega
      have hgl : ((l.drop (k + 1)).take limit).getLast?.map key =
          some (key (l.get ⟨k + limit, hkl⟩)) := by
        rw [getLast?_take_of_le _ limit hlim (le_of_lt hmore),
          getElem?_drop_get l (k + 1) (limit - 1) (by omega)]
        have hidx2 : (⟨k + 1 + (limit - 1), by omega⟩ : Fin l.length) =
            ⟨k + limit, hkl⟩ := by
          apply Fin.ext
          simp only []
          omega
        rw [hidx2]
        simp
      have hnc : (pageOf key (l.drop (k + 1)) none limit).nextCursor =
          some (key (l.get ⟨k + limit, hkl⟩)) := by
        rw [pageOf_none_nextCursor, if_pos hmore, hgl]
      have hhm : (pageOf key (l.drop (k + 1)) none limit).hasMore = true := by
        rw [pageOf_hasMore, hnc]
        simpa [strTruthy] using hne _ (List.get_mem l (k + limit) hkl)
      rw [expectedPages_of_lt key limit _ hlim hmore]
      rw [hnc, hhm]
      have hdata : (pageOf key (l.drop (k + 1)) none limit).data =
          (l.drop (k + 1)).take limit := pageOf_none_data key _ limit
      rw [hdata, hgl]
      have hdd : (l.drop (k + 1)).drop limit = l.drop (k + limit + 1) := by
        rw [List.drop_drop]
        congr 1
        omega
      dsimp only
      rw [ih (k + limit) hkl (by omega), hdd]
    · have hnc : (pageOf key (l.drop (k + 1)) none limit).nextCursor = none := by
        rw [pageOf_none_nextCursor, if_neg hmore]
      have hhm : (pageOf key (l.drop (k + 1)) none limit).hasMore = false := by
        rw [pageOf_hasMore, hnc]
        rfl
      have hdata : (pageOf key (l.drop (k + 1)) none limit).data = l.drop (k + 1) := by
        rw [pageOf_none_data]
        exact List.take_of_length_le (by omega)
      rw [expectedPages_of_le key limit _ (by omega)]
      rw [hnc, hhm, hdata]

/-- The full enumeration from the cursor-free first call. -/
theorem followPure_none {α : Type} (key : α → String) (l : List α) (limit : Nat)
    (hlim : 1 ≤ limit) (hnd : (l.map key).Nodup) (hne : ∀ x ∈ l, key x ≠ "")
    (fuel : Nat) (hf : l.length < fuel) :
    followPure key l limit fuel none = expectedPages key limit l := by
  cases fuel with
  | zero => omega
  | succ fuel =>
    have hac : afterCursor key l none = l := rfl
    simp only [followPure]
    by_cases hmore : limit < l.length
    · have hkl : limit - 1 < l.length := by omega
      have hgl : (l.take limit).getLast?.map key =
          some (key (l.get ⟨limit - 1, hkl⟩)) := by
        rw [getLast?_take_of_le _ limit hlim (le_of_lt hmore)]
        rw [List.getElem?_eq_getElem hkl]
        rfl
      have hnc : (pageOf key l none limit).nextCursor =
          some (key (l.get ⟨limit - 1, hkl⟩)) := by
        rw [pageOf_none_nextCursor, if_pos hmore, hgl]
      have hhm : (pageOf key l none limit).hasMore = true := by
        rw [pageOf_hasMore, hnc]
        simpa [strTruthy] using hne _ (List.get_mem l (limit - 1) hkl)
      rw [expectedPages_of_lt key limit _ hlim hmore]
      rw [hnc, hhm, pageOf_none_data, hgl]
      have hstep := followPure_at_index key l limit hlim hnd hne fuel (limit - 1)
        hkl (by omega)
      have hidx : limit - 1 + 1 = limit := by omega
      rw [hidx] at hstep
      dsimp only
      rw [hstep]
    · have hnc : (pageOf key l none limit).nextCursor = none := by
        rw [pageOf_none_nextCursor, if_neg hmore]
      have hhm : (pageOf key l none limit).hasMore = false := by
        rw [pageOf_hasMore, hnc]
        rfl
      have hdata : (pageOf key l none limit).data = l := by
        rw [pageOf_none_data]
        exact List.take_of_length_le (by omega)
      rw [expectedPages_of_le key limit _ (by omega)]
      rw [hnc, hhm, hdata]

theorem expectedPages_join {α : Type} (key : α → String) (limit : Nat)
    (hlim : 1 ≤ limit) :
    ∀ (l : List α), ((expectedPages key limit l).map PageOut.data).flatten = l := by
  suffices H : ∀ (n : Nat) (l : List α), l.length = n →
      ((expectedPages key limit l).map PageOut.data).flatten = l by
    exact fun l => H l.length l rfl
  intro n
  induction n using Nat.strong_induction_on with
  | _ n ih =>
    intro l hL
    by_cases h : l.length ≤ limit
    · rw [expectedPages_of_le key limit l h]
      simp
    · rw [expectedPages_of_lt key limit l hlim (by omega)]
      simp only [List.map_cons, List.flatten_cons]
      rw [ih (l.drop limit).length (by rw [List.length_drop]; omega) (l.drop limit) rfl]
      exact List.take_append_drop limit l

theorem expectedPages_ne_nil {α : Type} (key : α → String) (limit : Nat)
    (l : List α) : expectedPages key limit l ≠ [] := by
  rw [expectedPages]
  split <;> simp

theorem expectedPages_dropLast {α : Type} (key : α → String) (limit : Nat)
    (hlim : 1 ≤ limit) :
    ∀ (l : List α), ∀ p ∈ (expectedPages key limit l).dropLast,
      p.hasMore = true ∧ p.data.length = limit := by
  suffices H : ∀ (n : Nat) (l : List α), l.length = n →
      ∀ p ∈ (expectedPages key limit l).dropLast,
        p.hasMore = true ∧ p.data.length = limit by
    exact fun l => H l.length l rfl
  intro n
  induction n using Nat.strong_induction_on with
  | _ n ih =>
    intro l hL p hp
    by_cases h : l.length ≤ limit
    · rw [expectedPages_of_le key limit l h] at hp
      simp at hp
    · rw [expectedPages_of_lt key limit l hlim (by omega),
        List.dropLast_cons_of_ne_nil (expectedPages_ne_nil key limit _)] at hp
      rcases List.mem_cons.mp hp with hp | hp
      · subst hp
        refine ⟨rfl, ?_⟩
        rw [List.length_take]
        omega
      · exact ih (l.drop limit).length (by rw [List.length_drop]; omega)
          (l.drop limit) rfl p hp

theorem expectedPages_getLast {α : Type} (key : α → String) (limit : Nat)
    (hlim : 1 ≤ limit) :
    ∀ (l : List α) (p : PageOut α), (expectedPages key limit l).getLast? = some p →
      p.hasMore = false ∧ p.data.length ≤ limit ∧ p.nextCursor = none := by
  suffices H : ∀ (n : Nat) (l : List α), l.length = n →
      ∀ p, (expectedPages key limit l).getLast? = some p →
        p.hasMore = false ∧ p.data.length ≤ limit ∧ p.nextCursor = none by
    exact fun l => H l.length l rfl
  intro n
  induction n using Nat.strong_induction_on with
  | _ n ih =>
    intro l hL p hp
    by_cases h : l.length ≤ limit
    · rw [expectedPages_of_le key limit l h] at hp
      simp only [List.getLast?_singleton, Option.some.injEq] at hp
      subst hp
      exact ⟨rfl, h, rfl⟩
    · rw [expectedPages_of_lt key limit l hlim (by omega)] at hp
      rcases hrest : expectedPages key limit (l.drop limit) with _ | ⟨q, qs⟩
      · exact absurd hrest (expectedPages_ne_nil key limit _)
      · rw [hrest, List.getLast?_cons_cons] at hp
        rw [← hrest] at hp
        exact ih (l.drop limit).length (by rw [List.length_drop]; omega)
          (l.drop limit) rfl p hp

theorem afterCursor_sublist {α : Type} (key : α → String) (l : List α)
    (cursor : Option String) : List.Sublist (afterCursor key l cursor) l := by
  cases cursor with
  | none => exact List.Sublist.refl l
  | some c =>
    show List.Sublist
      (if c = "" then l else (l.dropWhile (fun r => key r ≠ c)).drop 1) l
    split
    · exact List.Sublist.refl l
    · exact List.Sublist.trans (List.drop_sublist 1 _)
        (List.dropWhile_sublist _)

/-- Whatever cursor a page returns is the key of one of the stored items; in
particular it is nonempty when all keys are. -/
theorem pageOf_nextCursor_ne_empty {α : Type} (key : α → String) (l : List α)
    (cursor : Option String) (limit : Nat) (hne : ∀ x ∈ l, key x ≠ "")
    (c : String) (h : (pageOf key l cursor limit).nextCursor = some c) :
    c ≠ "" := by
  have hform : (pageOf key l cursor limit).nextCursor =
      (if limit < ((afterCursor key l cursor).take (limit + 1)).length
       then (((afterCursor key l cursor).take (limit + 1)).take limit).getLast?.map key
       else none) := rfl
  rw [hform] at h
  split at h
  · match hy : (((afterCursor key l cursor).take (limit + 1)).take limit).getLast? with
    | none => rw [hy] at h; cases h
    | some y =>
      rw [hy] at h
      have hcy : key y = c := by
        simpa using h
      have hmem : y ∈ l := by
        have h1 := List.mem_of_getLast?_eq_some hy
        have h2 : List.Sublist (((afterCursor key l cursor).take (limit + 1)).take limit)
            ((afterCursor key l cursor).take (limit + 1)) := List.take_sublist ..
        have h3 : List.Sublist ((afterCursor key l cursor).take (limit + 1))
            (afterCursor key l cursor) := List.take_sublist ..
        exact (List.Sublist.trans (List.Sublist.trans h2 h3)
          (afterCursor_sublist key l cursor)).mem h1
      rw [← hcy]
      exact hne y hmem
  · cases h

/-- `listBoards` on a cache miss (or any cursor-bearing call) returns the pure
page over the sorted tenant rows, leaving the database untouched and no
effects. -/
theorem listBoards_miss_eq (s : State) (u t : String) (cursor : Option String)
    (limit : Nat) (hm : isUserMemberOfTenant s.db u t = true)
    (hmiss : strTruthy cursor = false →
      ∀ p, cacheGet s.cache (boardsFirstPageKey t limit) ≠ some (.boardsPage p)) :
    ∃ s' : State, listBoards s u t cursor limit =
      (.ok ⟨(pageOf BoardSummary.id (boardItems s.db t) cursor limit).data,
            ⟨(pageOf BoardSummary.id (boardItems s.db t) cursor limit).nextCursor,
             (pageOf BoardSummary.id (boardItems s.db t) cursor limit).hasMore⟩⟩,
       s', []) ∧ s'.db = s.db := by
  by_cases htr : strTruthy cursor = true
  · refine ⟨s, ?_, rfl⟩
    simp only [listBoards, hm]
    rw [if_neg (by simp), if_pos htr]
  · have htr' : strTruthy cursor = false := by
      simpa using htr
    refine ⟨⟨s.db, cacheSet s.cache (boardsFirstPageKey t limit)
      (.boardsPage ⟨(pageOf BoardSummary.id (boardItems s.db t) cursor limit).data,
        ⟨(pageOf BoardSummary.id (boardItems s.db t) cursor limit).nextCursor,
         (pageOf BoardSummary.id (boardItems s.db t) cursor limit).hasMore⟩⟩)⟩, ?_, rfl⟩
    simp only [listBoards, hm]
    rw [if_neg (by simp), if_neg (by simp [htr'])]
    match hcg : cacheGet s.cache (boardsFirstPageKey t limit) with
    | none => dsimp only; rw [hcg]
    | some (.boardsPage p) => exact absurd hcg (hmiss htr' p)
    | some (.todosPage p) => dsimp only; rw [hcg]

theorem listTodos_miss_eq (s : State) (u t b : String) (cursor : Option String)
    (limit : Nat) (hm : isUserMemberOfTenant s.db u t = true)
    (hmiss : strTruthy cursor = false →
      ∀ p, cacheGet s.cache (todosFirstPageKey t b limit) ≠ some (.todosPage p)) :
    ∃ s' : State, listTodos s u t b cursor limit =
      (.ok ⟨(pageOf TodoSummary.id (todoItems s.db t b) cursor limit).data,
            ⟨(pageOf TodoSummary.id (todoItems s.db t b) cursor limit).nextCursor,
             (pageOf TodoSummary.id (todoItems s.db t b) cursor limit).hasMore⟩⟩,
       s', []) ∧ s'.db = s.db := by
  by_cases htr : strTruthy cursor = true
  · refine ⟨s, ?_, rfl⟩
    simp only [listTodos, hm]
    rw [if_neg (by simp), if_pos htr]
  · have htr' : strTruthy cursor = false := by
      simpa using htr
    refine ⟨⟨s.db, cacheSet s.cache (todosFirstPageKey t b limit)
      (.todosPage ⟨(pageOf TodoSummary.id (todoItems s.db t b) cursor limit).data,
        ⟨(pageOf TodoSummary.id (todoItems s.db t b) cursor limit).nextCursor,
         (pageOf TodoSummary.id (todoItems s.db t b) cursor limit).hasMore⟩⟩)⟩, ?_, rfl⟩
    simp only [listTodos, hm]
    rw [if_neg (by simp), if_neg (by simp [htr'])]
    match hcg : cacheGet s.cache (todosFirstPageKey t b limit) with
    | none => dsimp only; rw [hcg]
    | some (.boardsPage p) => dsimp only; rw [hcg]
    | some (.todosPage p) => exact absurd hcg (hmiss htr' p)

/-- The state-threaded enumeration over `listBoards` produces exactly the pure
cursor-following pages (the first call may fill the cache, which later
cursor-bearing calls never read). -/
theorem followBoardPages_eq_pure (u t : String) (limit : Nat) :
    ∀ (fuel : Nat) (s : State) (cursor : Option String),
    isUserMemberOfTenant s.db u t = true →
    (strTruthy cursor = false →
      ∀ p, cacheGet s.cache (boardsFirstPageKey t limit) ≠ some (.boardsPage p)) →
    (∀ x ∈ boardItems s.db t, BoardSummary.id x ≠ "") →
    followBoardPages u t limit fuel s cursor =
      (followPure BoardSummary.id (boardItems s.db t) limit fuel cursor).map
        toBoardPage := by
  intro fuel
  induction fuel with
  | zero => intro s cursor _ _ _; rfl
  | succ fuel ih =>
    intro s cursor hm hmiss hne
    obtain ⟨s', heq, hdb⟩ := listBoards_miss_eq s u t cursor limit hm hmiss
    simp only [followBoardPages, heq, followPure]
    match hnc : (pageOf BoardSummary.id (boardItems s.db t) cursor limit).nextCursor with
    | none =>
      simp [toBoardPage, hnc]
    | some c =>
      have hcne : c ≠ "" :=
        pageOf_nextCursor_ne_empty BoardSummary.id (boardItems s.db t) cursor limit
          hne c hnc
      have hrec := ih s' (some c) (by rw [hdb]; exact hm)
        (fun hfalse => by simp [strTruthy, hcne] at hfalse)
        (by rw [hdb]; exact hne)
      rw [hdb] at hrec
      simp [toBoardPage, hnc, hrec]

theorem followTodoPages_eq_pure (u t b : String) (limit : Nat) :
    ∀ (fuel : Nat) (s : State) (cursor : Option String),
    isUserMemberOfTenant s.db u t = true →
    (strTruthy cursor = false →
      ∀ p, cacheGet s.cache (todosFirstPageKey t b limit) ≠ some (.todosPage p)) →
    (∀ x ∈ todoItems s.db t b, TodoSummary.id x ≠ "") →
    followTodoPages u t b limit fuel s cursor =
      (followPure TodoSummary.id (todoItems s.db t b) limit fuel cursor).map
        toTodoPage := by
  intro fuel
  induction fuel with
  | zero => intro s cursor _ _ _; rfl
  | succ fuel ih =>
    intro s cursor hm hmiss hne
    obtain ⟨s', heq, hdb⟩ := listTodos_miss_eq s u t b cursor limit hm hmiss
    simp only [followTodoPages, heq, followPure]
    match hnc : (pageOf TodoSummary.id (todoItems s.db t b) cursor limit).nextCursor with
    | none =>
      simp [toTodoPage, hnc]
    | some c =>
      have hcne : c ≠ "" :=
        pageOf_nextCursor_ne_empty TodoSummary.id (todoItems s.db t b) cursor limit
          hne c hnc
      have hrec := ih s' (some c) (by rw [hdb]; exact hm)
        (fun hfalse => by simp [strTruthy, hcne] at hfalse)
        (by rw [hdb]; exact hne)
      rw [hdb] at hrec
      simp [toTodoPage, hnc, hrec]

/-- The sorted, projected board rows: a permutation of the tenant's rows, with
ids sorted ascending, distinct (given the table's primary-key invariant) and
nonempty (ids are generated cuids). -/
theorem boardItems_facts (db : Db) (t : String)
    (hnd : (db.boards.map Board.id).Nodup) (hne : ∀ x ∈ db.boards, x.id ≠ "") :
    List.Perm (boardItems db t)
      ((db.boards.filter (fun x => x.tenantId = t)).map boardSummaryOf) ∧
    List.Pairwise (fun a b : BoardSummary => a.id ≤ b.id) (boardItems db t) ∧
    ((boardItems db t).map BoardSummary.id).Nodup ∧
    (∀ x ∈ boardItems db t, BoardSummary.id x ≠ "") := by
  have hperm : List.Perm
      (List.insertionSort (fun a b : Board => a.id ≤ b.id)
        (db.boards.filter (fun x => x.tenantId = t)))
      (db.boards.filter (fun x => x.tenantId = t)) :=
    List.perm_insertionSort _ _
  refine ⟨hperm.map boardSummaryOf, ?_, ?_, ?_⟩
  · haveI : IsTotal Board (fun a b => a.id ≤ b.id) :=
      ⟨fun a b => le_total a.id b.id⟩
    haveI : IsTrans Board (fun a b => a.id ≤ b.id) :=
      ⟨fun _ _ _ hab hbc => le_trans hab hbc⟩
    have hsorted : List.Pairwise (fun a b : Board => a.id ≤ b.id)
        (List.insertionSort (fun a b : Board => a.id ≤ b.id)
          (db.boards.filter (fun x => x.tenantId = t))) :=
      List.sorted_insertionSort _ _
    exact List.pairwise_map.mpr hsorted
  · have hids : (boardItems db t).map BoardSummary.id =
        (List.insertionSort (fun a b : Board => a.id ≤ b.id)
          (db.boards.filter (fun x => x.tenantId = t))).map Board.id := by
      rw [boardItems, List.map_map]
      rfl
    rw [hids]
    have hfilter : ((db.boards.filter (fun x => x.tenantId = t)).map Board.id).Nodup :=
      hnd.sublist ((db.boards.filter_sublist).map Board.id)
    exact ((hperm.map Board.id).nodup_iff).mpr hfilter
  · intro x hx
    rw [boardItems, List.mem_map] at hx
    obtain ⟨bd, hbd, hxeq⟩ := hx
    have hbmem : bd ∈ db.boards.filter (fun x => x.tenantId = t) :=
      hperm.subset hbd
    rw [← hxeq]
    exact hne bd (List.mem_of_mem_filter hbmem)

theorem todoItems_facts (db : Db) (t b : String)
    (hnd : (db.todos.map Todo.id).Nodup) (hne : ∀ x ∈ db.todos, x.id ≠ "") :
    List.Perm (todoItems db t b)
      ((db.todos.filter (fun x => x.tenantId = t ∧ x.boardId = b)).map todoSummaryOf) ∧
    List.Pairwise (fun a b : TodoSummary => a.id ≤ b.id) (todoItems db t b) ∧
    ((todoItems db t b).map TodoSummary.id).Nodup ∧
    (∀ x ∈ todoItems db t b, TodoSummary.id x ≠ "") := by
  have hperm : List.Perm
      (List.insertionSort (fun a b : Todo => a.id ≤ b.id)
        (db.todos.filter (fun x => (x.tenantId = t ∧ x.boardId = b : Bool))))
      (db.todos.filter (fun x => (x.tenantId = t ∧ x.boardId = b : Bool))) :=
    List.perm_insertionSort _ _
  refine ⟨hperm.map todoSummaryOf, ?_, ?_, ?_⟩
  · haveI : IsTotal Todo (fun a b => a.id ≤ b.id) :=
      ⟨fun a b => le_total a.id b.id⟩
    haveI : IsTrans Todo (fun a b => a.id ≤ b.id) :=
      ⟨fun _ _ _ hab hbc => le_trans hab hbc⟩
    have hsorted : List.Pairwise (fun a b : Todo => a.id ≤ b.id)
        (List.insertionSort (fun a b : Todo => a.id ≤ b.id)
          (db.todos.filter (fun x => (x.tenantId = t ∧ x.boardId = b : Bool)))) :=
      List.sorted_insertionSort _ _
    exact List.pairwise_map.mpr hsorted
  · have hids : (todoItems db t b).map TodoSummary.id =
        (List.insertionSort (fun a b : Todo => a.id ≤ b.id)
          (db.todos.filter (fun x => (x.tenantId = t ∧ x.boardId = b : Bool)))).map
          Todo.id := by
      rw [todoItems, List.map_map]
      rfl
    rw [hids]
    have hfilter : ((db.todos.filter
        (fun x => (x.tenantId = t ∧ x.boardId = b : Bool))).map Todo.id).Nodup :=
      hnd.sublist ((db.todos.filter_sublist).map Todo.id)
    exact ((hperm.map Todo.id).nodup_iff).mpr hfilter
  · intro x hx
    rw [todoItems, List.mem_map] at hx
    obtain ⟨td, htd, hxeq⟩ := hx
    have htmem : td ∈ db.todos.filter (fun x => (x.tenantId = t ∧ x.boardId = b : Bool)) :=
      hperm.subset htd
    rw [← hxeq]
    exact hne td (List.mem_of_mem_filter htmem)

/-- Claim C5: pagination correctness. For a member caller on a store with
unique nonempty row ids, a cold first-page cache and any page size
`limit ≥ 1`: repeatedly calling `listBoards` (resp. `listTodos`) following
`nextCursor` enumerates the tenant's (tenant+board's) rows exactly — the
concatenation of the returned pages is the full sorted item list, itself a
permutation of the stored rows, in ascending id order with no duplicates;
every non-final page has `hasMore = true` and exactly `limit` items; the final
page has `hasMore = false`, at most `limit` items and no `nextCursor`; and
every call over-fetches at most `limit + 1` rows and trims its `data` to the
first `limit` of them. -/
theorem pagination_enumerates_all (s : State) (u t b : String) (limit : Nat)
    (hlim : 1 ≤ limit)
    (hm : isUserMemberOfTenant s.db u t = true)
    (hbnd : (s.db.boards.map Board.id).Nodup)
    (hbne : ∀ x ∈ s.db.boards, x.id ≠ "")
    (htnd : (s.db.todos.map Todo.id).Nodup)
    (htne : ∀ x ∈ s.db.todos, x.id ≠ "")
    (hbmiss : ∀ p, cacheGet s.cache (boardsFirstPageKey t limit) ≠ some (.boardsPage p))
    (htmiss : ∀ p, cacheGet s.cache (todosFirstPageKey t b limit) ≠ some (.todosPage p)) :
    (((followBoardPages u t limit ((boardItems s.db t).length + 1) s none).map
        BoardPage.data).flatten = boardItems s.db t ∧
     List.Perm (boardItems s.db t)
       ((s.db.boards.filter (fun x => x.tenantId = t)).map boardSummaryOf) ∧
     List.Pairwise (fun a c : BoardSummary => a.id ≤ c.id) (boardItems s.db t) ∧
     ((boardItems s.db t).map BoardSummary.id).Nodup ∧
     followBoardPages u t limit ((boardItems s.db t).length + 1) s none ≠ [] ∧
     (∀ p ∈ (followBoardPages u t limit
         ((boardItems s.db t).length + 1) s none).dropLast,
       p.meta.hasMore = true ∧ p.data.length = limit) ∧
     (∀ p, (followBoardPages u t limit
         ((boardItems s.db t).length + 1) s none).getLast? = some p →
       p.meta.hasMore = false ∧ p.data.length ≤ limit ∧ p.meta.nextCursor = none) ∧
     (∀ cur, (pageOf BoardSummary.id (boardItems s.db t) cur limit).query.length
         ≤ limit + 1 ∧
       (pageOf BoardSummary.id (boardItems s.db t) cur limit).data =
         (pageOf BoardSummary.id (boardItems s.db t) cur limit).query.take limit)) ∧
    (((followTodoPages u t b limit ((todoItems s.db t b).length + 1) s none).map
        TodoPage.data).flatten = todoItems s.db t b ∧
     List.Perm (todoItems s.db t b)
       ((s.db.todos.filter (fun x => x.tenantId = t ∧ x.boardId = b)).map
         todoSummaryOf) ∧
     List.Pairwise (fun a c : TodoSummary => a.id ≤ c.id) (todoItems s.db t b) ∧
     ((todoItems s.db t b).map TodoSummary.id).Nodup ∧
     followTodoPages u t b limit ((todoItems s.db t b).length + 1) s none ≠ [] ∧
     (∀ p ∈ (followTodoPages u t b limit
         ((todoItems s.db t b).length + 1) s none).dropLast,
       p.meta.hasMore = true ∧ p.data.length = limit) ∧
     (∀ p, (followTodoPages u t b limit
         ((todoItems s.db t b).length + 1) s none).getLast? = some p →
       p.meta.hasMore = false ∧ p.data.length ≤ limit ∧ p.meta.nextCursor = none) ∧
     (∀ cur, (pageOf TodoSummary.id (todoItems s.db t b) cur limit).query.length
         ≤ limit + 1 ∧
       (pageOf TodoSummary.id (todoItems s.db t b) cur limit).data =
         (pageOf TodoSummary.id (todoItems s.db t b) cur limit).query.take limit)) := by
  obtain ⟨hbperm, hbsorted, hbnodup, hbkeys⟩ := boardItems_facts s.db t hbnd hbne
  obtain ⟨htperm, htsorted, htnodup, htkeys⟩ := todoItems_facts s.db t b htnd htne
  have hbpages : followBoardPages u t limit ((boardItems s.db t).length + 1) s none =
      (expectedPages BoardSummary.id limit (boardItems s.db t)).map toBoardPage := by
    rw [followBoardPages_eq_pure u t limit _ s none hm (fun _ => hbmiss) hbkeys,
      followPure_none BoardSummary.id _ limit hlim hbnodup hbkeys _ (by omega)]
  have htpages : followTodoPages u t b limit ((todoItems s.db t b).length + 1) s none =
      (expectedPages TodoSummary.id limit (todoItems s.db t b)).map toTodoPage := by
    rw [followTodoPages_eq_pure u t b limit _ s none hm (fun _ => htmiss) htkeys,
      followPure_none TodoSummary.id _ limit hlim htnodup htkeys _ (by omega)]
  constructor
  · refine ⟨?_, hbperm, hbsorted, hbnodup, ?_, ?_, ?_, ?_⟩
    · rw [hbpages, List.map_map]
      have hco : BoardPage.data ∘ toBoardPage = PageOut.data := rfl
      rw [hco]
      exact expectedPages_join BoardSummary.id limit hlim _
    · rw [hbpages]
      simp only [ne_eq, List.map_eq_nil_iff]
      exact expectedPages_ne_nil BoardSummary.id limit _
    · intro p hp
      rw [hbpages] at hp
      have hdl : ((expectedPages BoardSummary.id limit (boardItems s.db t)).map
          toBoardPage).dropLast =
          ((expectedPages BoardSummary.id limit (boardItems s.db t)).dropLast).map
            toBoardPage := by
        simp
      rw [hdl, List.mem_map] at hp
      obtain ⟨q, hq, rfl⟩ := hp
      exact expectedPages_dropLast BoardSummary.id limit hlim _ q hq
    · intro p hp
      rw [hbpages, List.getLast?_map] at hp
      match hql : (expectedPages BoardSummary.id limit (boardItems s.db t)).getLast? with
      | none => rw [hql] at hp; cases hp
      | some q =>
        rw [hql] at hp
        have hpq : p = toBoardPage q := by
          simpa using hp.symm
        subst hpq
        exact expectedPages_getLast BoardSummary.id limit hlim _ q hql
    · intro cur
      refine ⟨?_, rfl⟩
      have hq : (pageOf BoardSummary.id (boardItems s.db t) cur limit).query =
          (afterCursor BoardSummary.id (boardItems s.db t) cur).take (limit + 1) := rfl
      rw [hq, List.length_take]
      omega
  · refine ⟨?_, htperm, htsorted, htnodup, ?_, ?_, ?_, ?_⟩
    · rw [htpages, List.map_map]
      have hco : TodoPage.data ∘ toTodoPage = PageOut.data := rfl
      rw [hco]
      exact expectedPages_join TodoSummary.id limit hlim _
    · rw [htpages]
      simp only [ne_eq, List.map_eq_nil_iff]
      exact expectedPages_ne_nil TodoSummary.id limit _
    · intro p hp
      rw [htpages] at hp
      have hdl : ((expectedPages TodoSummary.id limit (todoItems s.db t b)).map
          toTodoPage).dropLast =
          ((expectedPages TodoSummary.id limit (todoItems s.db t b)).dropLast).map
            toTodoPage := by
        simp
      rw [hdl, List.mem_map] at hp
      obtain ⟨q, hq, rfl⟩ := hp
      exact expectedPages_dropLast TodoSummary.id limit hlim _ q hq
    · intro p hp
      rw [htpages, List.getLast?_map] at hp
      match hql : (expectedPages TodoSummary.id limit (todoItems s.db t b)).getLast? with
      | none => rw [hql] at hp; cases hp
      | some q =>
        rw [hql] at hp
        have hpq : p = toTodoPage q := by
          simpa using hp.symm
        subst hpq
        exact expectedPages_getLast TodoSummary.id limit hlim _ q hql
    · intro cur
      refine ⟨?_, rfl⟩
      have hq : (pageOf TodoSummary.id (todoItems s.db t b) cur limit).query =
          (afterCursor TodoSummary.id (todoItems s.db t b) cur).take (limit + 1) := rfl
      rw [hq, List.length_take]
      omega

theorem pagination_enumerates_all_witness :
    (1 ≤ 2) ∧
    (isUserMemberOfTenant
      (⟨⟨[], [⟨"u1", "t1", "member"⟩],
        [⟨"b1", "t1", "A"⟩, ⟨"b2", "t1", "B"⟩, ⟨"b3", "t1", "C"⟩],
        [⟨"td1", "t1", "b1", "X", "", .TODO, none⟩,
         ⟨"td2", "t1", "b1", "Y", "", .TODO, none⟩,
         ⟨"td3", "t1", "b1", "Z", "", .TODO, none⟩]⟩, []⟩ : State).db
      "u1" "t1" = true) ∧
    (∀ p, cacheGet ([] : CacheStore) (boardsFirstPageKey "t1" 2) ≠
      some (.boardsPage p)) ∧
    (∀ p, cacheGet ([] : CacheStore) (todosFirstPageKey "t1" "b1" 2) ≠
      some (.todosPage p)) ∧
    ((followBoardPages "u1" "t1" 2
        ((boardItems (⟨⟨[], [⟨"u1", "t1", "member"⟩],
          [⟨"b1", "t1", "A"⟩, ⟨"b2", "t1", "B"⟩, ⟨"b3", "t1", "C"⟩],
          [⟨"td1", "t1", "b1", "X", "", .TODO, none⟩,
           ⟨"td2", "t1", "b1", "Y", "", .TODO, none⟩,
           ⟨"td3", "t1", "b1", "Z", "", .TODO, none⟩]⟩, []⟩ : State).db "t1").length + 1)
        ⟨⟨[], [⟨"u1", "t1", "member"⟩],
          [⟨"b1", "t1", "A"⟩, ⟨"b2", "t1", "B"⟩, ⟨"b3", "t1", "C"⟩],
          [⟨"td1", "t1", "b1", "X", "", .TODO, none⟩,
           ⟨"td2", "t1", "b1", "Y", "", .TODO, none⟩,
           ⟨"td3", "t1", "b1", "Z", "", .TODO, none⟩]⟩, []⟩ none).map
        BoardPage.data).flatten =
      boardItems (⟨⟨[], [⟨"u1", "t1", "member"⟩],
        [⟨"b1", "t1", "A"⟩, ⟨"b2", "t1", "B"⟩, ⟨"b3", "t1", "C"⟩],
        [⟨"td1", "t1", "b1", "X", "", .TODO, none⟩,
         ⟨"td2", "t1", "b1", "Y", "", .TODO, none⟩,
         ⟨"td3", "t1", "b1", "Z", "", .TODO, none⟩]⟩, []⟩ : State).db "t1" ∧
    ((followTodoPages "u1" "t1" "b1" 2
        ((todoItems (⟨⟨[], [⟨"u1", "t1", "member"⟩],
          [⟨"b1", "t1", "A"⟩, ⟨"b2", "t1", "B"⟩, ⟨"b3", "t1", "C"⟩],
          [⟨"td1", "t1", "b1", "X", "", .TODO, none⟩,
           ⟨"td2", "t1", "b1", "Y", "", .TODO, none⟩,
           ⟨"td3", "t1", "b1", "Z", "", .TODO, none⟩]⟩, []⟩ : State).db "t1" "b1").length
          + 1)
        ⟨⟨[], [⟨"u1", "t1", "member"⟩],
          [⟨"b1", "t1", "A"⟩, ⟨"b2", "t1", "B"⟩, ⟨"b3", "t1", "C"⟩],
          [⟨"td1", "t1", "b1", "X", "", .TODO, none⟩,
           ⟨"td2", "t1", "b1", "Y", "", .TODO, none⟩,
           ⟨"td3", "t1", "b1", "Z", "", .TODO, none⟩]⟩, []⟩ none).map
        TodoPage.data).flatten =
      todoItems (⟨⟨[], [⟨"u1", "t1", "member"⟩],
        [⟨"b1", "t1", "A"⟩, ⟨"b2", "t1", "B"⟩, ⟨"b3", "t1", "C"⟩],
        [⟨"td1", "t1", "b1", "X", "", .TODO, none⟩,
         ⟨"td2", "t1", "b1", "Y", "", .TODO, none⟩,
         ⟨"td3", "t1", "b1", "Z", "", .TODO, none⟩]⟩, []⟩ : State).db "t1" "b1" := by
  have h := pagination_enumerates_all
    ⟨⟨[], [⟨"u1", "t1", "member"⟩],
      [⟨"b1", "t1", "A"⟩, ⟨"b2", "t1", "B"⟩, ⟨"b3", "t1", "C"⟩],
      [⟨"td1", "t1", "b1", "X", "", .TODO, none⟩,
       ⟨"td2", "t1", "b1", "Y", "", .TODO, none⟩,
       ⟨"td3", "t1", "b1", "Z", "", .TODO, none⟩]⟩, []⟩
    "u1" "t1" "b1" 2 (by decide) (by decide) (by decide)
    (by intro x hx; fin_cases hx <;> decide)
    (by decide)
    (by intro x hx; fin_cases hx <;> decide)
    (by intro p; simp [cacheGet])
    (by intro p; simp [cacheGet])
  exact ⟨by decide, by decide, by intro p; simp [cacheGet],
    by intro p; simp [cacheGet], h.1.1, h.2.1⟩

end Carsu
